import Mathlib

/-!
The 1024-ish board: slides, stalemate and win queries.

A shallow embedding of `class Board` of `src/main.cpp`: the 4x4 grid of `int`
cells, the four in-place sweeps `slideLeft`, `slideRight`, `slideUp`,
`slideDown`, and the queries `hasMoves` and `hasWon`.

The loops of the source are kept as folds over the index lists they visit, and
the local variables (`moved`, `merged[]`) as fields of an explicit loop state.
The `int` cells are integers; the only arithmetic of the source, `*= 2`, is
reduced to the 32-bit two's complement range.
-/

namespace Game1024

/-! ## Data model -/

/-- The constant `static const int SIZE = 4;`. -/
abbrev SIZE : Nat := 4

/-- The array `int grid[SIZE][SIZE]`, addressed `grid[row][col]`. -/
abbrev Grid := Fin SIZE → Fin SIZE → Int

/-- The members of `class Board`. -/
structure Board where
  grid : Grid
  target : Int

/-- Reduction of an integer to the range of a 32-bit `int`. -/
def wrapInt (x : Int) : Int := (x + 2147483648) % 4294967296 - 2147483648

/-- The value stored by `cell *= 2`. -/
def timesTwo (x : Int) : Int := wrapInt (x * 2)

/-- The assignment `grid[i][j] = v`. -/
def setCell (g : Grid) (i j : Fin SIZE) (v : Int) : Grid :=
  fun a b => if a = i ∧ b = j then v else g a b

/-- The assignment `merged[t] = true`. -/
def setFlag (m : Fin SIZE → Bool) (t : Fin SIZE) : Fin SIZE → Bool :=
  fun a => if a = t then true else m a

/-- The variables live inside the inner loop of a slide: the grid, the
`merged[]` flags of the current line, and `moved`. -/
structure Sweep where
  grid : Grid
  merged : Fin SIZE → Bool
  moved : Bool

/-- The fresh flags `bool merged[SIZE] = {false};` of a line. -/
def noFlags : Fin SIZE → Bool := fun _ => false

/-- The indices `0, 1, 2, 3` of an outer loop `for (x = 0; x < SIZE; ++x)`. -/
def allIndices : List (Fin SIZE) := [0, 1, 2, 3]

/-- The indices of an inner loop `for (x = 1; x < SIZE; ++x)`. -/
def ascending : List (Fin SIZE) := [1, 2, 3]

/-- The indices of an inner loop `for (x = SIZE - 2; x >= 0; --x)`. -/
def descending : List (Fin SIZE) := [2, 1, 0]

/-- The constructor `Board(int modeTarget)`: every cell `0`. -/
def Board.new (modeTarget : Int) : Board := ⟨fun _ _ => 0, modeTarget⟩

/-! ## slideLeft -/

/-- Body of the inner loop of `slideLeft` at row `i`, column `j`. -/
def slideLeftCell (i j : Fin SIZE) (s : Sweep) : Sweep :=
  if s.grid i j ≠ 0 then
    let target : Fin SIZE := j - 1
    if s.grid i target = 0 then
      { grid := setCell (setCell s.grid i target (s.grid i j)) i j 0,
        merged := s.merged,
        moved := true }
    else if s.grid i target = s.grid i j ∧ s.merged target = false then
      { grid := setCell (setCell s.grid i target (timesTwo (s.grid i target))) i j 0,
        merged := setFlag s.merged target,
        moved := true }
    else s
  else s

/-- Body of the outer loop of `slideLeft`: one row, with fresh `merged[]`. -/
def slideLeftRow (i : Fin SIZE) (st : Grid × Bool) : Grid × Bool :=
  let s := ascending.foldl (fun s j => slideLeftCell i j s) ⟨st.1, noFlags, st.2⟩
  (s.grid, s.moved)

/-- The method `bool Board::slideLeft()`: the board afterwards and the value returned. -/
def Board.slideLeft (b : Board) : Board × Bool :=
  let r := allIndices.foldl (fun st i => slideLeftRow i st) (b.grid, false)
  ({ b with grid := r.1 }, r.2)

/-! ## slideRight -/

/-- Body of the inner loop of `slideRight` at row `i`, column `j`. -/
def slideRightCell (i j : Fin SIZE) (s : Sweep) : Sweep :=
  if s.grid i j ≠ 0 then
    let target : Fin SIZE := j + 1
    if s.grid i target = 0 then
      { grid := setCell (setCell s.grid i target (s.grid i j)) i j 0,
        merged := s.merged,
        moved := true }
    else if s.grid i target = s.grid i j ∧ s.merged target = false then
      { grid := setCell (setCell s.grid i target (timesTwo (s.grid i target))) i j 0,
        merged := setFlag s.merged target,
        moved := true }
    else s
  else s

/-- Body of the outer loop of `slideRight`: one row, with fresh `merged[]`. -/
def slideRightRow (i : Fin SIZE) (st : Grid × Bool) : Grid × Bool :=
  let s := descending.foldl (fun s j => slideRightCell i j s) ⟨st.1, noFlags, st.2⟩
  (s.grid, s.moved)

/-- The method `bool Board::slideRight()`: the board afterwards and the value returned. -/
def Board.slideRight (b : Board) : Board × Bool :=
  let r := allIndices.foldl (fun st i => slideRightRow i st) (b.grid, false)
  ({ b with grid := r.1 }, r.2)

/-! ## slideUp -/

/-- Body of the inner loop of `slideUp` at column `j`, row `i`. -/
def slideUpCell (j i : Fin SIZE) (s : Sweep) : Sweep :=
  if s.grid i j ≠ 0 then
    let target : Fin SIZE := i - 1
    if s.grid target j = 0 then
      { grid := setCell (setCell s.grid target j (s.grid i j)) i j 0,
        merged := s.merged,
        moved := true }
    else if s.grid target j = s.grid i j ∧ s.merged target = false then
      { grid := setCell (setCell s.grid target j (timesTwo (s.grid target j))) i j 0,
        merged := setFlag s.merged target,
        moved := true }
    else s
  else s

/-- Body of the outer loop of `slideUp`: one column, with fresh `merged[]`. -/
def slideUpColumn (j : Fin SIZE) (st : Grid × Bool) : Grid × Bool :=
  let s := ascending.foldl (fun s i => slideUpCell j i s) ⟨st.1, noFlags, st.2⟩
  (s.grid, s.moved)

/-- The method `bool Board::slideUp()`: the board afterwards and the value returned. -/
def Board.slideUp (b : Board) : Board × Bool :=
  let r := allIndices.foldl (fun st j => slideUpColumn j st) (b.grid, false)
  ({ b with grid := r.1 }, r.2)

/-! ## slideDown -/

/-- Body of the inner loop of `slideDown` at column `j`, row `i`. -/
def slideDownCell (j i : Fin SIZE) (s : Sweep) : Sweep :=
  if s.grid i j ≠ 0 then
    let target : Fin SIZE := i + 1
    if s.grid target j = 0 then
      { grid := setCell (setCell s.grid target j (s.grid i j)) i j 0,
        merged := s.merged,
        moved := true }
    else if s.grid target j = s.grid i j ∧ s.merged target = false then
      { grid := setCell (setCell s.grid target j (timesTwo (s.grid target j))) i j 0,
        merged := setFlag s.merged target,
        moved := true }
    else s
  else s

/-- Body of the outer loop of `slideDown`: one column, with fresh `merged[]`. -/
def slideDownColumn (j : Fin SIZE) (st : Grid × Bool) : Grid × Bool :=
  let s := descending.foldl (fun s i => slideDownCell j i s) ⟨st.1, noFlags, st.2⟩
  (s.grid, s.moved)

/-- The method `bool Board::slideDown()`: the board afterwards and the value returned. -/
def Board.slideDown (b : Board) : Board × Bool :=
  let r := allIndices.foldl (fun st j => slideDownColumn j st) (b.grid, false)
  ({ b with grid := r.1 }, r.2)

/-! ## The move command of `main` -/

/-- The four move commands `U`, `D`, `L`, `R` read by `main`. -/
inductive Move where
  | U
  | D
  | L
  | R
  deriving DecidableEq, Repr

/-- The dispatch of `main`: `U` calls `slideUp`, `D` `slideDown`, `L`
`slideLeft`, `R` `slideRight`. -/
def Board.slide (m : Move) (b : Board) : Board × Bool :=
  match m with
  | Move.U => b.slideUp
  | Move.D => b.slideDown
  | Move.L => b.slideLeft
  | Move.R => b.slideRight

/-! ## hasMoves and hasWon -/

/-- The columns `0, 1, 2` of the loop `for (j = 0; j < SIZE - 1; ++j)`. -/
def pairStarts : List (Fin SIZE) := [0, 1, 2]

/-- The method `bool Board::hasMoves()`: the first pair of loops returns `true` at an
empty cell, the second at an equal pair `grid[i][j], grid[i][j+1]` or
`grid[j][i], grid[j+1][i]`; otherwise `false`. -/
def Board.hasMoves (b : Board) : Bool :=
  if allIndices.any (fun i => allIndices.any (fun j => b.grid i j == 0)) then true
  else if allIndices.any (fun i => pairStarts.any (fun j =>
      b.grid i j == b.grid i (j + 1) || b.grid j i == b.grid (j + 1) i)) then true
  else false

/-- The method `bool Board::hasWon()`: some cell equals `target`. -/
def Board.hasWon (b : Board) : Bool :=
  allIndices.any (fun i => allIndices.any (fun j => b.grid i j == b.target))

/-! ## Lines of a move

For a move, the four lines it sweeps (rows for `L` and `R`, columns for `U`
and `D`), each read from the destination edge outward. The definitions of this
section restate the loops line by line; `slide_eq`, `slide_line` and
`slide_moved` below prove that the loops of the four slides compute them. -/

/-- A line of four cells; position `0` is the cell at the destination edge. -/
abbrev Line := Fin SIZE → Int

/-- The cell of the grid that is position `p` of line `k` of a move. -/
def cellOf (m : Move) (k p : Fin SIZE) : Fin SIZE × Fin SIZE :=
  match m with
  | Move.L => (k, p)
  | Move.R => (k, Fin.rev p)
  | Move.U => (p, k)
  | Move.D => (Fin.rev p, k)

/-- Line `k` of the grid for a move, read from the destination edge. -/
def lineOf (m : Move) (g : Grid) (k : Fin SIZE) : Line :=
  fun p => g (cellOf m k p).1 (cellOf m k p).2

/-- Value left in the neighbour cell (holding `x`) by the inner loop body run
on a cell holding `y`: the tile moved in, the doubled tile, or `x` untouched.
The `merged` flag of the neighbour is taken to be `false`. -/
def nearAfter (x y : Int) : Int :=
  if y ≠ 0 then
    if x = 0 then y else if x = y then timesTwo x else x
  else x

/-- Value left in the processed cell (holding `y`, neighbour holding `x`) by
the inner loop body: `0` when the tile moved or merged, else `y`. -/
def farAfter (x y : Int) : Int :=
  if y ≠ 0 then
    if x = 0 then 0 else if x = y then 0 else y
  else y

/-- Whether the inner loop body, run on a cell holding `y` with neighbour
holding `x`, sets `moved`. -/
def fires (x y : Int) : Bool :=
  decide (y ≠ 0 ∧ (x = 0 ∨ x = y))

/-- The inner loop body as one action on a pair of cells of the grid: `near`
is the neighbour toward the destination edge, `far` the processed cell. -/
def actOn (g : Grid) (near far : Fin SIZE × Fin SIZE) : Grid :=
  setCell (setCell g near.1 near.2 (nearAfter (g near.1 near.2) (g far.1 far.2)))
    far.1 far.2 (farAfter (g near.1 near.2) (g far.1 far.2))

/-- The three actions of the inner loop on line `k` of a move. -/
def sweepOn (m : Move) (k : Fin SIZE) (g : Grid) : Grid :=
  actOn (actOn (actOn g (cellOf m k 0) (cellOf m k 1)) (cellOf m k 1) (cellOf m k 2))
    (cellOf m k 2) (cellOf m k 3)

/-- Whether the three actions on line `k` of a move set `moved`. -/
def sweepMoved (m : Move) (k : Fin SIZE) (g : Grid) : Bool :=
  let c := cellOf m k
  let g1 := actOn g (c 0) (c 1)
  let g2 := actOn g1 (c 1) (c 2)
  fires (g (c 0).1 (c 0).2) (g (c 1).1 (c 1).2) ||
    fires (g1 (c 1).1 (c 1).2) (g1 (c 2).1 (c 2).2) ||
    fires (g2 (c 2).1 (c 2).2) (g2 (c 3).1 (c 3).2)

/-- A line after the sweep, in closed form. -/
def sweptLine (l : Line) : Line :=
  ![nearAfter (l 0) (l 1),
    nearAfter (farAfter (l 0) (l 1)) (l 2),
    nearAfter (farAfter (farAfter (l 0) (l 1)) (l 2)) (l 3),
    farAfter (farAfter (farAfter (l 0) (l 1)) (l 2)) (l 3)]

/-- Whether the sweep of a line sets `moved`, in closed form. -/
def lineMoved (l : Line) : Bool :=
  fires (l 0) (l 1) || fires (farAfter (l 0) (l 1)) (l 2) ||
    fires (farAfter (farAfter (l 0) (l 1)) (l 2)) (l 3)

/-- A board whose only tile is a `2` in the last column of the first row. -/
def loneTile : Board := { grid := setCell (Board.new 1024).grid 0 3 2, target := 1024 }

/-- A board whose first row is `[2,2,2,0]` and whose other rows are empty. -/
def chainBoard : Board :=
  { grid := setCell (setCell (setCell (Board.new 1024).grid 0 0 2) 0 1 2) 0 2 2, target := 1024 }

/-- The tiles (non-empty cells) of a line, in order from the destination edge. -/
def tiles (l : Line) : List Int := [l 0, l 1, l 2, l 3].filter (fun v => v ≠ 0)

/-- Whether the tiles `after` come from the tiles `before` by replacing disjoint pairs of
neighbouring equal tiles by one tile of double the value and keeping every other tile. Each
tile of `after` stands for one tile of `before` or for two, never for more. -/
def mergedOnce : List Int → List Int → Bool
  | [], [] => true
  | [], _ :: _ => false
  | _ :: _, [] => false
  | [x], y :: ys => decide (x = y) && mergedOnce [] ys
  | x :: x' :: xs, y :: ys =>
      (decide (x = y) && mergedOnce (x' :: xs) ys) ||
        (decide (x' = x) && decide (y = 2 * x) && mergedOnce xs ys)

/-- Every cell can be doubled without leaving the range of `int`. -/
def Doubles (g : Grid) : Prop := ∀ i j, -1073741824 ≤ g i j ∧ g i j < 1073741824

/-- The sum of the four cells of a line. -/
def lineSum (l : Line) : Int := ∑ p : Fin SIZE, l p

/-- The sum of the sixteen cells of a grid. -/
def gridSum (g : Grid) : Int := ∑ i : Fin SIZE, ∑ j : Fin SIZE, g i j

/-- A valid tile value: a power of 2 that is at least 2. -/
def IsTileValue (v : Int) : Prop := ∃ e : Nat, 1 ≤ e ∧ v = 2 ^ e

/-- No move or merge remains possible for a move: in every line, read from the destination
edge, the neighbour toward the edge of a non-empty cell is neither empty nor equal to it. -/
def Settled (m : Move) (g : Grid) : Prop :=
  ∀ k p q : Fin SIZE, q.val = p.val + 1 → lineOf m g k q ≠ 0 →
    lineOf m g k p ≠ 0 ∧ lineOf m g k p ≠ lineOf m g k q

/-- A board whose first row is `[2,4,2,0]` and whose other rows are empty. -/
def packedBoard : Board :=
  { grid := setCell (setCell (setCell (Board.new 1024).grid 0 0 2) 0 1 4) 0 2 2, target := 1024 }

/-- A board with one cell equal to the Easy target `256` and the other cells empty. -/
def wonBoard : Board := { grid := setCell (Board.new 256).grid 2 1 256, target := 256 }

/-! ## addRandomNumber -/

/-- The generator behind `chooseRandomNumber` (header `mersenne-twister.h`, which is not
among the sources), taken as a parameter: `draw n lo hi` is the value that call number `n`
returns when asked for a number between `lo` and `hi`, and `calls` counts the calls made. -/
structure Rng where
  draw : Nat → Int → Int → Int
  calls : Nat

/-- The call `chooseRandomNumber(lo, hi)`: the value drawn and the generator afterwards. -/
def chooseRandomNumber (lo hi : Int) (r : Rng) : Int × Rng :=
  (r.draw r.calls lo hi, { r with calls := r.calls + 1 })

/-- The contract of the generator: every draw lies between the bounds it was asked for. -/
def InRange (r : Rng) : Prop :=
  ∀ n lo hi, lo ≤ hi → lo ≤ r.draw n lo hi ∧ r.draw n lo hi ≤ hi

/-- Step 1 of `addRandomNumber`: the empty cells, pushed back in row-major order. -/
def emptyCells (g : Grid) : List (Fin SIZE × Fin SIZE) :=
  allIndices.foldl (fun cells i =>
    allIndices.foldl (fun cells j => if g i j = 0 then cells ++ [(i, j)] else cells) cells) []

/-- The value assigned in step 4 of `addRandomNumber` for a mode and a value draw:
`(randomValue > (mode == 1 ? 5 : mode == 2 ? 7 : 9)) ? 4 : 2`. -/
def spawnValue (mode randomValue : Int) : Int :=
  if randomValue > (if mode = 1 then 5 else if mode = 2 then 7 else 9) then 4 else 2

/-- The element `emptyCells[randomIndex]`; `none` when the index is outside the vector, where
the access is undefined. -/
def cellAt (cells : List (Fin SIZE × Fin SIZE)) (randomIndex : Int) :
    Option (Fin SIZE × Fin SIZE) :=
  if 0 ≤ randomIndex then cells.get? randomIndex.toNat else none

/-- The method `void Board::addRandomNumber(int mode)`: the board and the generator
afterwards; `none` when the cell index drawn is outside `emptyCells`. -/
def Board.addRandomNumber (mode : Int) (b : Board) (r : Rng) : Option (Board × Rng) :=
  let cells := emptyCells b.grid
  if cells.isEmpty then some (b, r)
  else
    let d1 := chooseRandomNumber 1 cells.length r
    let randomIndex := d1.1 - 1
    match cellAt cells randomIndex with
    | none => none
    | some cell =>
      let d2 := chooseRandomNumber 1 10 d1.2
      some ({ b with grid := setCell b.grid cell.1 cell.2 (spawnValue mode d2.1) }, d2.2)

/-! ## transpose and reverseRows -/

/-- The call `swap(grid[a][b], grid[c][d])`. -/
def swapCells (g : Grid) (x y : Fin SIZE × Fin SIZE) : Grid :=
  setCell (setCell g x.1 x.2 (g y.1 y.2)) y.1 y.2 (g x.1 x.2)

/-- The method `void Board::transpose()`: for each `i`, the columns `j = i + 1 .. SIZE - 1`
in ascending order, swapping `grid[i][j]` with `grid[j][i]`. -/
def Board.transpose (b : Board) : Board :=
  let swapped := allIndices.foldl (fun g i =>
    (allIndices.filter (fun j => decide (i < j))).foldl
      (fun g j => swapCells g (i, j) (j, i)) g) b.grid
  { b with grid := swapped }

/-- The columns `0, 1` of the loop `for (j = 0; j < SIZE / 2; ++j)`. -/
def leftHalf : List (Fin SIZE) := [0, 1]

/-- The method `void Board::reverseRows()`: for each row, swapping `grid[i][j]` with
`grid[i][SIZE - 1 - j]` for `j` in the left half. -/
def Board.reverseRows (b : Board) : Board :=
  let swapped := allIndices.foldl (fun g i =>
    leftHalf.foldl (fun g j => swapCells g (i, j) (i, 3 - j)) g) b.grid
  { b with grid := swapped }

/-! ## The game of `main` -/

/-- The three game modes of `main`. -/
inductive Mode where
  | Easy
  | Medium
  | Hard
  deriving DecidableEq, Repr

/-- The number `mode` that `main` sets for the input `E`, `M` or `H`. -/
def Mode.code : Mode → Int
  | Mode.Easy => 1
  | Mode.Medium => 2
  | Mode.Hard => 3

/-- The target of `main`: `(mode == 1) ? 256 : (mode == 2) ? 512 : 1024`. -/
def targetOf (mode : Int) : Int :=
  if mode = 1 then 256 else if mode = 2 then 512 else 1024

/-- The start of `main`: the board constructed with the target of the mode, then
`addRandomNumber(mode)` twice. -/
def startGame (mode : Int) (r : Rng) : Option (Board × Rng) :=
  match (Board.new (targetOf mode)).addRandomNumber mode r with
  | none => none
  | some s => s.1.addRandomNumber mode s.2

/-- One pass of the loop of `main` for a valid move command: the slide, whose returned value
is not used, then `addRandomNumber(mode)`. -/
def turn (mode : Int) (m : Move) (b : Board) (r : Rng) : Option (Board × Rng) :=
  (b.slide m).1.addRandomNumber mode r

/-- A generator whose every draw is the lower bound. -/
def lowest : Rng := { draw := fun _ lo _ => lo, calls := 0 }

/-- A board whose only tile is a `2` in the first cell. -/
def cornerTile : Board := { grid := setCell (Board.new 1024).grid 0 0 2, target := 1024 }

/-- The threshold the spec gives for a mode: Easy 5, Medium 7, Hard 9. -/
def Mode.threshold : Mode → Int
  | Mode.Easy => 5
  | Mode.Medium => 7
  | Mode.Hard => 9

/-- The ten values a draw `chooseRandomNumber(1, 10)` can take. -/
def valueDraws : List Int := [1, 2, 3, 4, 5, 6, 7, 8, 9, 10]

/-- A board with no empty cell: every cell is `2`. -/
def fullBoard : Board := { grid := fun _ _ => 2, target := 1024 }

/-- The boards a game of a mode can show: the board of `startGame`, and from a board on
which `hasWon()` is `false` the board after one more `turn`. -/
inductive Reachable (mode : Int) : Board → Prop
  | start (r : Rng) (s : Board × Rng) : startGame mode r = some s → Reachable mode s.1
  | step (b : Board) (m : Move) (r : Rng) (s : Board × Rng) :
      Reachable mode b → b.hasWon = false → turn mode m b r = some s → Reachable mode s.1

/-- Every non-empty cell is a power of 2, at least 2 and at most the target. -/
def TilesUpTo (t : Int) (g : Grid) : Prop :=
  ∀ i j, g i j = 0 ∨ (IsTileValue (g i j) ∧ g i j ≤ t)

/-- Row-major order of cells: an earlier row, or the same row and an earlier column. -/
def rowMajorBefore (a b : Fin SIZE × Fin SIZE) : Prop :=
  a.1 < b.1 ∨ (a.1 = b.1 ∧ a.2 < b.2)

/-! ## The slides without the merged flags -/

/-- Body of the inner loop of `slideLeft` with the condition `!merged[target]` removed. -/
def slideLeftCellNoFlag (i j : Fin SIZE) (s : Sweep) : Sweep :=
  if s.grid i j ≠ 0 then
    let target : Fin SIZE := j - 1
    if s.grid i target = 0 then
      { grid := setCell (setCell s.grid i target (s.grid i j)) i j 0,
        merged := s.merged,
        moved := true }
    else if s.grid i target = s.grid i j then
      { grid := setCell (setCell s.grid i target (timesTwo (s.grid i target))) i j 0,
        merged := setFlag s.merged target,
        moved := true }
    else s
  else s

/-- Body of the outer loop of `slideLeft` with the condition `!merged[target]` removed. -/
def slideLeftRowNoFlag (i : Fin SIZE) (st : Grid × Bool) : Grid × Bool :=
  let s := ascending.foldl (fun s j => slideLeftCellNoFlag i j s) ⟨st.1, noFlags, st.2⟩
  (s.grid, s.moved)

/-- The method `slideLeft` with the condition `!merged[target]` removed. -/
def Board.slideLeftNoFlag (b : Board) : Board × Bool :=
  let r := allIndices.foldl (fun st i => slideLeftRowNoFlag i st) (b.grid, false)
  ({ b with grid := r.1 }, r.2)

/-- Body of the inner loop of `slideRight` with the condition `!merged[target]` removed. -/
def slideRightCellNoFlag (i j : Fin SIZE) (s : Sweep) : Sweep :=
  if s.grid i j ≠ 0 then
    let target : Fin SIZE := j + 1
    if s.grid i target = 0 then
      { grid := setCell (setCell s.grid i target (s.grid i j)) i j 0,
        merged := s.merged,
        moved := true }
    else if s.grid i target = s.grid i j then
      { grid := setCell (setCell s.grid i target (timesTwo (s.grid i target))) i j 0,
        merged := setFlag s.merged target,
        moved := true }
    else s
  else s

/-- Body of the outer loop of `slideRight` with the condition `!merged[target]` removed. -/
def slideRightRowNoFlag (i : Fin SIZE) (st : Grid × Bool) : Grid × Bool :=
  let s := descending.foldl (fun s j => slideRightCellNoFlag i j s) ⟨st.1, noFlags, st.2⟩
  (s.grid, s.moved)

/-- The method `slideRight` with the condition `!merged[target]` removed. -/
def Board.slideRightNoFlag (b : Board) : Board × Bool :=
  let r := allIndices.foldl (fun st i => slideRightRowNoFlag i st) (b.grid, false)
  ({ b with grid := r.1 }, r.2)

/-- Body of the inner loop of `slideUp` with the condition `!merged[target]` removed. -/
def slideUpCellNoFlag (j i : Fin SIZE) (s : Sweep) : Sweep :=
  if s.grid i j ≠ 0 then
    let target : Fin SIZE := i - 1
    if s.grid target j = 0 then
      { grid := setCell (setCell s.grid target j (s.grid i j)) i j 0,
        merged := s.merged,
        moved := true }
    else if s.grid target j = s.grid i j then
      { grid := setCell (setCell s.grid target j (timesTwo (s.grid target j))) i j 0,
        merged := setFlag s.merged target,
        moved := true }
    else s
  else s

/-- Body of the outer loop of `slideUp` with the condition `!merged[target]` removed. -/
def slideUpColumnNoFlag (j : Fin SIZE) (st : Grid × Bool) : Grid × Bool :=
  let s := ascending.foldl (fun s i => slideUpCellNoFlag j i s) ⟨st.1, noFlags, st.2⟩
  (s.grid, s.moved)

/-- The method `slideUp` with the condition `!merged[target]` removed. -/
def Board.slideUpNoFlag (b : Board) : Board × Bool :=
  let r := allIndices.foldl (fun st j => slideUpColumnNoFlag j st) (b.grid, false)
  ({ b with grid := r.1 }, r.2)

/-- Body of the inner loop of `slideDown` with the condition `!merged[target]` removed. -/
def slideDownCellNoFlag (j i : Fin SIZE) (s : Sweep) : Sweep :=
  if s.grid i j ≠ 0 then
    let target : Fin SIZE := i + 1
    if s.grid target j = 0 then
      { grid := setCell (setCell s.grid target j (s.grid i j)) i j 0,
        merged := s.merged,
        moved := true }
    else if s.grid target j = s.grid i j then
      { grid := setCell (setCell s.grid target j (timesTwo (s.grid target j))) i j 0,
        merged := setFlag s.merged target,
        moved := true }
    else s
  else s

/-- Body of the outer loop of `slideDown` with the condition `!merged[target]` removed. -/
def slideDownColumnNoFlag (j : Fin SIZE) (st : Grid × Bool) : Grid × Bool :=
  let s := descending.foldl (fun s i => slideDownCellNoFlag j i s) ⟨st.1, noFlags, st.2⟩
  (s.grid, s.moved)

/-- The method `slideDown` with the condition `!merged[target]` removed. -/
def Board.slideDownNoFlag (b : Board) : Board × Bool :=
  let r := allIndices.foldl (fun st j => slideDownColumnNoFlag j st) (b.grid, false)
  ({ b with grid := r.1 }, r.2)

/-! ## The loops as actions on lines -/

theorem setCell_apply (g : Grid) (i j a b : Fin SIZE) (v : Int) :
    setCell g i j v a b = if a = i ∧ b = j then v else g a b := rfl

theorem actOn_apply (g : Grid) (n f : Fin SIZE × Fin SIZE) (a b : Fin SIZE) :
    actOn g n f a b =
      if (a, b) = f then farAfter (g n.1 n.2) (g f.1 f.2)
      else if (a, b) = n then nearAfter (g n.1 n.2) (g f.1 f.2)
      else g a b := by
  simp only [actOn, setCell_apply, Prod.ext_iff]

theorem slideLeftCell_grid (i j : Fin SIZE) (s : Sweep) (h : s.merged (j - 1) = false) :
    (slideLeftCell i j s).grid = actOn s.grid (i, j - 1) (i, j) := by
  funext a b
  simp only [slideLeftCell, actOn, nearAfter, farAfter]
  split_ifs <;> simp only [setCell_apply] <;> split_ifs <;> simp_all

theorem slideLeftCell_moved (i j : Fin SIZE) (s : Sweep) (h : s.merged (j - 1) = false) :
    (slideLeftCell i j s).moved = (s.moved || fires (s.grid i (j - 1)) (s.grid i j)) := by
  simp only [slideLeftCell, fires]
  split_ifs <;> simp_all

theorem slideLeftCell_merged (i j q : Fin SIZE) (s : Sweep) (hq : q ≠ j - 1) :
    (slideLeftCell i j s).merged q = s.merged q := by
  simp only [slideLeftCell]
  split_ifs <;> simp_all [setFlag]

theorem slideLeftRow_eq (i : Fin SIZE) (g : Grid) (mv : Bool) :
    slideLeftRow i (g, mv) = (sweepOn Move.L i g, mv || sweepMoved Move.L i g) := by
  have f0 : (⟨g, noFlags, mv⟩ : Sweep).merged ((1 : Fin SIZE) - 1) = false := rfl
  have f1 : (slideLeftCell i 1 ⟨g, noFlags, mv⟩).merged ((2 : Fin SIZE) - 1) = false := by
    rw [slideLeftCell_merged _ _ _ _ (by decide)]; rfl
  have f2 : (slideLeftCell i 2 (slideLeftCell i 1 ⟨g, noFlags, mv⟩)).merged
      ((3 : Fin SIZE) - 1) = false := by
    rw [slideLeftCell_merged _ _ _ _ (by decide), slideLeftCell_merged _ _ _ _ (by decide)]; rfl
  have g1 := slideLeftCell_grid i 1 _ f0
  have g2 := slideLeftCell_grid i 2 _ f1
  have g3 := slideLeftCell_grid i 3 _ f2
  have m1 := slideLeftCell_moved i 1 _ f0
  have m2 := slideLeftCell_moved i 2 _ f1
  have m3 := slideLeftCell_moved i 3 _ f2
  simp only [slideLeftRow, ascending, List.foldl]
  rw [g3, m3, g2, m2, g1, m1]
  simp only [sweepOn, sweepMoved, cellOf, Bool.or_assoc]
  rfl

theorem slideRightCell_grid (i j : Fin SIZE) (s : Sweep) (h : s.merged (j + 1) = false) :
    (slideRightCell i j s).grid = actOn s.grid (i, j + 1) (i, j) := by
  funext a b
  simp only [slideRightCell, actOn, nearAfter, farAfter]
  split_ifs <;> simp only [setCell_apply] <;> split_ifs <;> simp_all

theorem slideRightCell_moved (i j : Fin SIZE) (s : Sweep) (h : s.merged (j + 1) = false) :
    (slideRightCell i j s).moved = (s.moved || fires (s.grid i (j + 1)) (s.grid i j)) := by
  simp only [slideRightCell, fires]
  split_ifs <;> simp_all

theorem slideRightCell_merged (i j q : Fin SIZE) (s : Sweep) (hq : q ≠ j + 1) :
    (slideRightCell i j s).merged q = s.merged q := by
  simp only [slideRightCell]
  split_ifs <;> simp_all [setFlag]

theorem slideRightRow_eq (i : Fin SIZE) (g : Grid) (mv : Bool) :
    slideRightRow i (g, mv) = (sweepOn Move.R i g, mv || sweepMoved Move.R i g) := by
  have f0 : (⟨g, noFlags, mv⟩ : Sweep).merged ((2 : Fin SIZE) + 1) = false := rfl
  have f1 : (slideRightCell i 2 ⟨g, noFlags, mv⟩).merged ((1 : Fin SIZE) + 1) = false := by
    rw [slideRightCell_merged _ _ _ _ (by decide)]; rfl
  have f2 : (slideRightCell i 1 (slideRightCell i 2 ⟨g, noFlags, mv⟩)).merged
      ((0 : Fin SIZE) + 1) = false := by
    rw [slideRightCell_merged _ _ _ _ (by decide), slideRightCell_merged _ _ _ _ (by decide)]; rfl
  have g1 := slideRightCell_grid i 2 _ f0
  have g2 := slideRightCell_grid i 1 _ f1
  have g3 := slideRightCell_grid i 0 _ f2
  have m1 := slideRightCell_moved i 2 _ f0
  have m2 := slideRightCell_moved i 1 _ f1
  have m3 := slideRightCell_moved i 0 _ f2
  simp only [slideRightRow, descending, List.foldl]
  rw [g3, m3, g2, m2, g1, m1]
  simp only [sweepOn, sweepMoved, cellOf, Bool.or_assoc]
  rfl

theorem slideUpCell_grid (j i : Fin SIZE) (s : Sweep) (h : s.merged (i - 1) = false) :
    (slideUpCell j i s).grid = actOn s.grid (i - 1, j) (i, j) := by
  funext a b
  simp only [slideUpCell, actOn, nearAfter, farAfter]
  split_ifs <;> simp only [setCell_apply] <;> split_ifs <;> simp_all

theorem slideUpCell_moved (j i : Fin SIZE) (s : Sweep) (h : s.merged (i - 1) = false) :
    (slideUpCell j i s).moved = (s.moved || fires (s.grid (i - 1) j) (s.grid i j)) := by
  simp only [slideUpCell, fires]
  split_ifs <;> simp_all

theorem slideUpCell_merged (j i q : Fin SIZE) (s : Sweep) (hq : q ≠ i - 1) :
    (slideUpCell j i s).merged q = s.merged q := by
  simp only [slideUpCell]
  split_ifs <;> simp_all [setFlag]

theorem slideUpColumn_eq (j : Fin SIZE) (g : Grid) (mv : Bool) :
    slideUpColumn j (g, mv) = (sweepOn Move.U j g, mv || sweepMoved Move.U j g) := by
  have f0 : (⟨g, noFlags, mv⟩ : Sweep).merged ((1 : Fin SIZE) - 1) = false := rfl
  have f1 : (slideUpCell j 1 ⟨g, noFlags, mv⟩).merged ((2 : Fin SIZE) - 1) = false := by
    rw [slideUpCell_merged _ _ _ _ (by decide)]; rfl
  have f2 : (slideUpCell j 2 (slideUpCell j 1 ⟨g, noFlags, mv⟩)).merged
      ((3 : Fin SIZE) - 1) = false := by
    rw [slideUpCell_merged _ _ _ _ (by decide), slideUpCell_merged _ _ _ _ (by decide)]; rfl
  have g1 := slideUpCell_grid j 1 _ f0
  have g2 := slideUpCell_grid j 2 _ f1
  have g3 := slideUpCell_grid j 3 _ f2
  have m1 := slideUpCell_moved j 1 _ f0
  have m2 := slideUpCell_moved j 2 _ f1
  have m3 := slideUpCell_moved j 3 _ f2
  simp only [slideUpColumn, ascending, List.foldl]
  rw [g3, m3, g2, m2, g1, m1]
  simp only [sweepOn, sweepMoved, cellOf, Bool.or_assoc]
  rfl

theorem slideDownCell_grid (j i : Fin SIZE) (s : Sweep) (h : s.merged (i + 1) = false) :
    (slideDownCell j i s).grid = actOn s.grid (i + 1, j) (i, j) := by
  funext a b
  simp only [slideDownCell, actOn, nearAfter, farAfter]
  split_ifs <;> simp only [setCell_apply] <;> split_ifs <;> simp_all

theorem slideDownCell_moved (j i : Fin SIZE) (s : Sweep) (h : s.merged (i + 1) = false) :
    (slideDownCell j i s).moved = (s.moved || fires (s.grid (i + 1) j) (s.grid i j)) := by
  simp only [slideDownCell, fires]
  split_ifs <;> simp_all

theorem slideDownCell_merged (j i q : Fin SIZE) (s : Sweep) (hq : q ≠ i + 1) :
    (slideDownCell j i s).merged q = s.merged q := by
  simp only [slideDownCell]
  split_ifs <;> simp_all [setFlag]

theorem slideDownColumn_eq (j : Fin SIZE) (g : Grid) (mv : Bool) :
    slideDownColumn j (g, mv) = (sweepOn Move.D j g, mv || sweepMoved Move.D j g) := by
  have f0 : (⟨g, noFlags, mv⟩ : Sweep).merged ((2 : Fin SIZE) + 1) = false := rfl
  have f1 : (slideDownCell j 2 ⟨g, noFlags, mv⟩).merged ((1 : Fin SIZE) + 1) = false := by
    rw [slideDownCell_merged _ _ _ _ (by decide)]; rfl
  have f2 : (slideDownCell j 1 (slideDownCell j 2 ⟨g, noFlags, mv⟩)).merged
      ((0 : Fin SIZE) + 1) = false := by
    rw [slideDownCell_merged _ _ _ _ (by decide), slideDownCell_merged _ _ _ _ (by decide)]; rfl
  have g1 := slideDownCell_grid j 2 _ f0
  have g2 := slideDownCell_grid j 1 _ f1
  have g3 := slideDownCell_grid j 0 _ f2
  have m1 := slideDownCell_moved j 2 _ f0
  have m2 := slideDownCell_moved j 1 _ f1
  have m3 := slideDownCell_moved j 0 _ f2
  simp only [slideDownColumn, descending, List.foldl]
  rw [g3, m3, g2, m2, g1, m1]
  simp only [sweepOn, sweepMoved, cellOf, Bool.or_assoc]
  rfl

theorem fin4_cases (p : Fin SIZE) : p = 0 ∨ p = 1 ∨ p = 2 ∨ p = 3 := by
  revert p; decide

theorem cellOf_inj (m : Move) (k p k' p' : Fin SIZE) :
    cellOf m k p = cellOf m k' p' ↔ k = k' ∧ p = p' := by
  cases m <;> simp [cellOf, Prod.ext_iff, Fin.rev_inj, and_comm]

theorem lineOf_actOn (m : Move) (g : Grid) (k p q k' p' : Fin SIZE) :
    lineOf m (actOn g (cellOf m k p) (cellOf m k q)) k' p' =
      if k' = k ∧ p' = q then farAfter (lineOf m g k p) (lineOf m g k q)
      else if k' = k ∧ p' = p then nearAfter (lineOf m g k p) (lineOf m g k q)
      else lineOf m g k' p' := by
  simp only [lineOf, actOn_apply, Prod.mk.eta, cellOf_inj]

theorem lineOf_sweepOn (m : Move) (g : Grid) (k k' : Fin SIZE) :
    lineOf m (sweepOn m k g) k' = if k' = k then sweptLine (lineOf m g k) else lineOf m g k' := by
  funext p
  by_cases h : k' = k
  · subst h
    rcases fin4_cases p with rfl | rfl | rfl | rfl <;>
      simp [sweepOn, lineOf_actOn, sweptLine]
  · simp [sweepOn, lineOf_actOn, h]

theorem sweepMoved_eq (m : Move) (g : Grid) (k : Fin SIZE) :
    sweepMoved m k g = lineMoved (lineOf m g k) := by
  have h := lineOf_actOn m g k
  have h2 := lineOf_actOn m (actOn g (cellOf m k 0) (cellOf m k 1)) k
  simp only [lineOf] at h h2
  simp [sweepMoved, lineMoved, h, h2, lineOf]

theorem slide_eq (m : Move) (b : Board) :
    b.slide m =
      ({ b with grid := sweepOn m 3 (sweepOn m 2 (sweepOn m 1 (sweepOn m 0 b.grid))) },
        sweepMoved m 0 b.grid || sweepMoved m 1 (sweepOn m 0 b.grid) ||
          sweepMoved m 2 (sweepOn m 1 (sweepOn m 0 b.grid)) ||
          sweepMoved m 3 (sweepOn m 2 (sweepOn m 1 (sweepOn m 0 b.grid)))) := by
  cases m <;>
    simp only [Board.slide, Board.slideLeft, Board.slideRight, Board.slideUp, Board.slideDown,
      allIndices, List.foldl, slideLeftRow_eq, slideRightRow_eq, slideUpColumn_eq,
      slideDownColumn_eq, Bool.false_or]

/-- Every line of the grid after a slide is the swept line of the grid before. -/
theorem slide_line (m : Move) (b : Board) (k : Fin SIZE) :
    lineOf m (b.slide m).1.grid k = sweptLine (lineOf m b.grid k) := by
  rw [slide_eq]
  rcases fin4_cases k with rfl | rfl | rfl | rfl <;> simp [lineOf_sweepOn]

/-- The value returned by a slide: some line was changed by its sweep. -/
theorem slide_moved (m : Move) (b : Board) :
    (b.slide m).2 = (lineMoved (lineOf m b.grid 0) || lineMoved (lineOf m b.grid 1) ||
      lineMoved (lineOf m b.grid 2) || lineMoved (lineOf m b.grid 3)) := by
  rw [slide_eq]
  simp [sweepMoved_eq, lineOf_sweepOn]

theorem slide_target (m : Move) (b : Board) : (b.slide m).1.target = b.target := by
  rw [slide_eq]

/-- A grid is determined by its lines for a move. -/
theorem grid_ext_lines (m : Move) (g h : Grid) (e : ∀ k, lineOf m g k = lineOf m h k) :
    g = h := by
  funext a b
  cases m
  · have := congrFun (e b) a; simpa [lineOf, cellOf] using this
  · have := congrFun (e b) (Fin.rev a); simpa [lineOf, cellOf] using this
  · have := congrFun (e a) b; simpa [lineOf, cellOf] using this
  · have := congrFun (e a) (Fin.rev b); simpa [lineOf, cellOf] using this

/-! ## Facts about one line -/

theorem exists_fin4 (P : Fin SIZE → Prop) : (∃ p, P p) ↔ P 0 ∨ P 1 ∨ P 2 ∨ P 3 := by
  constructor
  · rintro ⟨p, hp⟩
    rcases fin4_cases p with rfl | rfl | rfl | rfl <;> simp [hp]
  · rintro (h | h | h | h) <;> exact ⟨_, h⟩

theorem forall_fin4 (P : Fin SIZE → Prop) : (∀ p, P p) ↔ P 0 ∧ P 1 ∧ P 2 ∧ P 3 := by
  constructor
  · intro h; exact ⟨h 0, h 1, h 2, h 3⟩
  · rintro ⟨h0, h1, h2, h3⟩ p
    rcases fin4_cases p with rfl | rfl | rfl | rfl <;> assumption

theorem sweptLine_0 (l : Line) : sweptLine l 0 = nearAfter (l 0) (l 1) := rfl
theorem sweptLine_1 (l : Line) : sweptLine l 1 = nearAfter (farAfter (l 0) (l 1)) (l 2) := rfl
theorem sweptLine_2 (l : Line) :
    sweptLine l 2 = nearAfter (farAfter (farAfter (l 0) (l 1)) (l 2)) (l 3) := rfl
theorem sweptLine_3 (l : Line) :
    sweptLine l 3 = farAfter (farAfter (farAfter (l 0) (l 1)) (l 2)) (l 3) := rfl

theorem timesTwo_ne (x : Int) (h : x ≠ 0) : timesTwo x ≠ x := by
  unfold timesTwo wrapInt
  omega

theorem timesTwo_eq (x : Int) (h1 : -1073741824 ≤ x) (h2 : x < 1073741824) :
    timesTwo x = 2 * x := by
  unfold timesTwo wrapInt
  omega

theorem lineMoved_iff (l : Line) : lineMoved l = true ↔ ∃ p, sweptLine l p ≠ l p := by
  rw [exists_fin4]
  simp only [sweptLine_0, sweptLine_1, sweptLine_2, sweptLine_3, lineMoved]
  generalize l 0 = a
  generalize l 1 = b
  generalize l 2 = c
  generalize l 3 = d
  have ha := timesTwo_ne a
  have hb := timesTwo_ne b
  have hc := timesTwo_ne c
  by_cases h1 : a = 0 <;> by_cases h2 : b = 0 <;> by_cases h3 : c = 0 <;> by_cases h4 : d = 0 <;>
    by_cases h5 : a = b <;> by_cases h6 : b = c <;> by_cases h7 : c = d <;>
    simp_all [nearAfter, farAfter, fires]

/-! ## C1: how far a tile moves -/

theorem sweptLine_pull (l : Line) :
    (l 1 ≠ 0 → l 0 = 0 → sweptLine l 0 = l 1) ∧ (l 2 ≠ 0 → l 1 = 0 → sweptLine l 1 = l 2) ∧
      (l 3 ≠ 0 → l 2 = 0 → sweptLine l 2 = l 3) := by
  simp only [sweptLine_0, sweptLine_1, sweptLine_2, sweptLine_3]
  generalize l 0 = a
  generalize l 1 = b
  generalize l 2 = c
  generalize l 3 = d
  by_cases h1 : a = 0 <;> by_cases h2 : b = 0 <;> by_cases h3 : c = 0 <;> by_cases h4 : d = 0 <;>
    by_cases h5 : a = b <;> by_cases h6 : b = c <;> by_cases h7 : c = d <;>
    simp_all [nearAfter, farAfter, fires]

theorem sweptLine_source (l : Line) :
    (sweptLine l 0 ≠ 0 →
      sweptLine l 0 = l 0 ∨ sweptLine l 0 = timesTwo (l 0) ∨ sweptLine l 0 = l 1) ∧
    (sweptLine l 1 ≠ 0 →
      sweptLine l 1 = l 1 ∨ sweptLine l 1 = timesTwo (l 1) ∨ sweptLine l 1 = l 2) ∧
    (sweptLine l 2 ≠ 0 →
      sweptLine l 2 = l 2 ∨ sweptLine l 2 = timesTwo (l 2) ∨ sweptLine l 2 = l 3) ∧
    (sweptLine l 3 ≠ 0 → sweptLine l 3 = l 3) := by
  simp only [sweptLine_0, sweptLine_1, sweptLine_2, sweptLine_3]
  generalize l 0 = a
  generalize l 1 = b
  generalize l 2 = c
  generalize l 3 = d
  by_cases h1 : a = 0 <;> by_cases h2 : b = 0 <;> by_cases h3 : c = 0 <;> by_cases h4 : d = 0 <;>
    by_cases h5 : a = b <;> by_cases h6 : b = c <;> by_cases h7 : c = d <;>
    simp_all [nearAfter, farAfter, fires]

/-- C1, as stated, fails: `slideLeft` on the row `[0,0,0,2]` gives `[0,0,2,0]`; the tile is in
column 2 with the empty columns 1 and 0 between it and the left edge. -/
theorem slideLeft_leaves_gap :
    loneTile.grid 0 = ![0, 0, 0, 2] ∧ loneTile.slideLeft.1.grid 0 = ![0, 0, 2, 0] ∧
      loneTile.slideLeft.1.grid 0 2 ≠ 0 ∧ loneTile.slideLeft.1.grid 0 1 = 0 ∧
      loneTile.slideLeft.1.grid 0 0 = 0 := by
  decide

/-- C1 (amended): a slide moves each tile at most one cell toward the destination edge. In
every line, read from the destination edge: a tile whose neighbour toward the edge was empty
before the slide ends in that neighbouring cell, and every non-empty cell after the slide
holds the value that was in the same cell, its double, or the value that was in the next
cell away from the edge. -/
theorem slide_moves_one_cell (b : Board) (m : Move) (k : Fin SIZE) :
    (∀ p q : Fin SIZE, q.val = p.val + 1 → lineOf m b.grid k q ≠ 0 → lineOf m b.grid k p = 0 →
        lineOf m (b.slide m).1.grid k p = lineOf m b.grid k q) ∧
    (∀ p : Fin SIZE, lineOf m (b.slide m).1.grid k p ≠ 0 →
        lineOf m (b.slide m).1.grid k p = lineOf m b.grid k p ∨
        lineOf m (b.slide m).1.grid k p = timesTwo (lineOf m b.grid k p) ∨
        ∃ q : Fin SIZE, q.val = p.val + 1 ∧
          lineOf m (b.slide m).1.grid k p = lineOf m b.grid k q) := by
  rw [slide_line]
  obtain ⟨p0, p1, p2⟩ := sweptLine_pull (lineOf m b.grid k)
  obtain ⟨s0, s1, s2, s3⟩ := sweptLine_source (lineOf m b.grid k)
  constructor
  · intro p q hpq
    rcases fin4_cases p with rfl | rfl | rfl | rfl <;>
      rcases fin4_cases q with rfl | rfl | rfl | rfl <;>
      first
        | exact absurd hpq (by decide)
        | assumption
  · intro p
    rcases fin4_cases p with rfl | rfl | rfl | rfl
    · intro h
      rcases s0 h with e | e | e
      · exact Or.inl e
      · exact Or.inr (Or.inl e)
      · exact Or.inr (Or.inr ⟨1, rfl, e⟩)
    · intro h
      rcases s1 h with e | e | e
      · exact Or.inl e
      · exact Or.inr (Or.inl e)
      · exact Or.inr (Or.inr ⟨2, rfl, e⟩)
    · intro h
      rcases s2 h with e | e | e
      · exact Or.inl e
      · exact Or.inr (Or.inl e)
      · exact Or.inr (Or.inr ⟨3, rfl, e⟩)
    · intro h
      exact Or.inl (s3 h)

/-! ## C2: the value returned by a slide -/

theorem cellOf_surj (m : Move) (i j : Fin SIZE) : ∃ k p, cellOf m k p = (i, j) := by
  cases m
  · exact ⟨j, i, rfl⟩
  · exact ⟨j, Fin.rev i, by simp [cellOf]⟩
  · exact ⟨i, j, rfl⟩
  · exact ⟨i, Fin.rev j, by simp [cellOf]⟩

theorem slide_moved_iff (m : Move) (b : Board) :
    (b.slide m).2 = true ↔ ∃ k, lineMoved (lineOf m b.grid k) = true := by
  rw [slide_moved, exists_fin4]
  simp only [Bool.or_eq_true, or_assoc]

/-- C2: for each of `slideLeft`, `slideRight`, `slideUp`, `slideDown`, the value returned is
`true` if and only if the grid after the call differs from the grid before it in some cell. -/
theorem slide_returns_changed (b : Board) (m : Move) :
    (b.slide m).2 = true ↔ ∃ i j, (b.slide m).1.grid i j ≠ b.grid i j := by
  rw [slide_moved_iff]
  constructor
  · rintro ⟨k, hk⟩
    obtain ⟨p, hp⟩ := (lineMoved_iff _).1 hk
    rw [← slide_line] at hp
    exact ⟨(cellOf m k p).1, (cellOf m k p).2, hp⟩
  · rintro ⟨i, j, hij⟩
    obtain ⟨k, p, hkp⟩ := cellOf_surj m i j
    refine ⟨k, (lineMoved_iff _).2 ⟨p, ?_⟩⟩
    rw [← slide_line]
    simpa [lineOf, hkp] using hij

theorem lineMoved_false_iff (l : Line) : lineMoved l = false ↔ sweptLine l = l := by
  constructor
  · intro h
    funext p
    by_contra c
    have := (lineMoved_iff l).2 ⟨p, c⟩
    rw [h] at this
    exact Bool.false_ne_true this
  · intro h
    by_contra c
    have c' : lineMoved l = true := by simpa using c
    obtain ⟨p, hp⟩ := (lineMoved_iff l).1 c'
    exact hp (by rw [h])

/-- A slide that returns `false` leaves the board as it was. -/
theorem slide_idle (b : Board) (m : Move) (h : (b.slide m).2 = false) :
    b.slide m = (b, false) := by
  have hm : ∀ k, lineMoved (lineOf m b.grid k) = false := by
    intro k
    by_contra c
    have c' : lineMoved (lineOf m b.grid k) = true := by simpa using c
    have := (slide_moved_iff m b).2 ⟨k, c'⟩
    rw [h] at this
    exact Bool.false_ne_true this
  have hg : (b.slide m).1.grid = b.grid := by
    apply grid_ext_lines m
    intro k
    rw [slide_line]
    exact (lineMoved_false_iff _).1 (hm k)
  have ht := slide_target m b
  have hb : (b.slide m).1 = b := by
    cases hs : (b.slide m).1 with
    | mk g t =>
      rw [hs] at hg ht
      cases b
      simp_all
  exact Prod.ext hb h

/-! ## C3: three equal tiles in a row -/

theorem sweptLine_chain (v : Int) (h0 : 0 < v) (h1 : v < 1073741824) :
    sweptLine ![v, v, v, 0] = ![2 * v, v, 0, 0] := by
  have hv : v ≠ 0 := by omega
  have ht : timesTwo v = 2 * v := timesTwo_eq v (by omega) h1
  funext p
  rcases fin4_cases p with rfl | rfl | rfl | rfl <;>
    simp [sweptLine_0, sweptLine_1, sweptLine_2, sweptLine_3, nearAfter, farAfter, hv, ht]

theorem rev_line (a b c d : Int) (l : Line) (h : l = ![a, b, c, d]) :
    (fun p => l (Fin.rev p)) = ![d, c, b, a] := by
  subst h
  funext p
  rcases fin4_cases p with rfl | rfl | rfl | rfl <;> rfl

theorem line_of_rev (a b c d : Int) (l : Line) (h : (fun p => l (Fin.rev p)) = ![a, b, c, d]) :
    l = ![d, c, b, a] := by
  have := rev_line a b c d _ h
  simpa using this

/-- C3: for a tile value `v > 0` whose double fits in `int`, `slideLeft` turns a row
`[v,v,v,0]` into `[2v,v,0,0]` (not `[2v,2v,0,0]`, not `[4v,0,0,0]`), `slideRight` turns a row
`[0,v,v,v]` into `[0,0,v,2v]`, `slideUp` turns a column `[v,v,v,0]` into `[2v,v,0,0]` and
`slideDown` turns a column `[0,v,v,v]` into `[0,0,v,2v]`. -/
theorem chain_merge (b : Board) (v : Int) (h0 : 0 < v) (h1 : v < 1073741824) :
    (∀ i, b.grid i = ![v, v, v, 0] →
      b.slideLeft.1.grid i = ![2 * v, v, 0, 0] ∧
      b.slideLeft.1.grid i ≠ ![2 * v, 2 * v, 0, 0] ∧
      b.slideLeft.1.grid i ≠ ![4 * v, 0, 0, 0]) ∧
    (∀ i, b.grid i = ![0, v, v, v] → b.slideRight.1.grid i = ![0, 0, v, 2 * v]) ∧
    (∀ j, (fun i => b.grid i j) = ![v, v, v, 0] →
      (fun i => b.slideUp.1.grid i j) = ![2 * v, v, 0, 0]) ∧
    (∀ j, (fun i => b.grid i j) = ![0, v, v, v] →
      (fun i => b.slideDown.1.grid i j) = ![0, 0, v, 2 * v]) := by
  have key := sweptLine_chain v h0 h1
  refine ⟨?_, ?_, ?_, ?_⟩
  · intro i h
    have e : b.slideLeft.1.grid i = ![2 * v, v, 0, 0] := by
      have := slide_line Move.L b i
      rw [show lineOf Move.L b.grid i = ![v, v, v, 0] from h, key] at this
      exact this
    refine ⟨e, ?_, ?_⟩
    · rw [e]; intro c
      have := congrFun c 1
      simp at this; omega
    · rw [e]; intro c
      have := congrFun c 1
      simp at this; omega
  · intro i h
    have := slide_line Move.R b i
    rw [show lineOf Move.R b.grid i = ![v, v, v, 0] from rev_line _ _ _ _ _ h, key] at this
    exact line_of_rev _ _ _ _ _ this
  · intro j h
    have := slide_line Move.U b j
    rw [show lineOf Move.U b.grid j = ![v, v, v, 0] from h, key] at this
    exact this
  · intro j h
    have := slide_line Move.D b j
    rw [show lineOf Move.D b.grid j = ![v, v, v, 0] from
      rev_line _ _ _ _ (fun i => b.grid i j) h, key] at this
    exact line_of_rev _ _ _ _ (fun i => b.slideDown.1.grid i j) this

/-- C3 at the row `[2,2,2,0]`: `slideLeft` yields `[4,2,0,0]`. -/
theorem chain_merge_witness :
    chainBoard.grid 0 = ![2, 2, 2, 0] ∧ chainBoard.slideLeft.1.grid 0 = ![4, 2, 0, 0] :=
  ⟨by decide, ((chain_merge chainBoard 2 (by decide) (by decide)).1 0 (by decide)).1⟩

/-! ## C4: a tile merges at most once -/

theorem sweptLine_mergedOnce (l : Line) (h : ∀ p, -1073741824 ≤ l p ∧ l p < 1073741824) :
    mergedOnce (tiles l) (tiles (sweptLine l)) = true ∧
      (tiles l).length ≤ 2 * (tiles (sweptLine l)).length := by
  have ta := timesTwo_eq _ (h 0).1 (h 0).2
  have tb := timesTwo_eq _ (h 1).1 (h 1).2
  have tc := timesTwo_eq _ (h 2).1 (h 2).2
  simp only [tiles, sweptLine_0, sweptLine_1, sweptLine_2, sweptLine_3]
  revert ta tb tc
  generalize l 0 = a
  generalize l 1 = b
  generalize l 2 = c
  generalize l 3 = d
  intro ta tb tc
  by_cases h1 : a = 0 <;> by_cases h2 : b = 0 <;> by_cases h3 : c = 0 <;> by_cases h4 : d = 0 <;>
    by_cases h5 : a = b <;> by_cases h6 : b = c <;> by_cases h7 : c = d <;>
    simp_all [nearAfter, farAfter, mergedOnce, List.filter]

/-- C4: a tile merges at most once per move. On a grid whose cells can be doubled within
`int`, for every move and every line, the tiles after the slide come from the tiles before
it by replacing disjoint pairs of neighbouring equal tiles by one tile of double the value
and keeping every other tile; no tile is built from three or more, so the line keeps at
least half of its tiles. -/
theorem merge_at_most_once (b : Board) (m : Move) (k : Fin SIZE) (h : Doubles b.grid) :
    mergedOnce (tiles (lineOf m b.grid k)) (tiles (lineOf m (b.slide m).1.grid k)) = true ∧
      (tiles (lineOf m b.grid k)).length ≤
        2 * (tiles (lineOf m (b.slide m).1.grid k)).length := by
  rw [slide_line]
  exact sweptLine_mergedOnce _ (fun p => h _ _)

/-- C4 at the row `[2,2,2,0]` slid left: the tiles `[2,2,2]` become `[4,2]`. -/
theorem merge_at_most_once_witness :
    Doubles chainBoard.grid ∧
      tiles (lineOf Move.L chainBoard.grid 0) = [2, 2, 2] ∧
      tiles (lineOf Move.L (chainBoard.slide Move.L).1.grid 0) = [4, 2] ∧
      mergedOnce (tiles (lineOf Move.L chainBoard.grid 0))
        (tiles (lineOf Move.L (chainBoard.slide Move.L).1.grid 0)) = true :=
  ⟨by unfold Doubles; decide, by decide, by decide,
    (merge_at_most_once chainBoard Move.L 0 (by unfold Doubles; decide)).1⟩

/-! ## C5: the sum of the cells -/

theorem sweptLine_sum (l : Line) (h : ∀ p, -1073741824 ≤ l p ∧ l p < 1073741824) :
    lineSum (sweptLine l) = lineSum l := by
  have ta := timesTwo_eq _ (h 0).1 (h 0).2
  have tb := timesTwo_eq _ (h 1).1 (h 1).2
  have tc := timesTwo_eq _ (h 2).1 (h 2).2
  simp only [lineSum, Fin.sum_univ_four, sweptLine_0, sweptLine_1, sweptLine_2, sweptLine_3]
  revert ta tb tc
  generalize l 0 = a
  generalize l 1 = b
  generalize l 2 = c
  generalize l 3 = d
  intro ta tb tc
  by_cases h1 : a = 0 <;> by_cases h2 : b = 0 <;> by_cases h3 : c = 0 <;> by_cases h4 : d = 0 <;>
    by_cases h5 : a = b <;> by_cases h6 : b = c <;> by_cases h7 : c = d <;>
    simp_all [nearAfter, farAfter] <;> omega

theorem gridSum_lines (m : Move) (g : Grid) :
    gridSum g = ∑ k : Fin SIZE, lineSum (lineOf m g k) := by
  have r0 : Fin.rev (0 : Fin SIZE) = 3 := rfl
  have r1 : Fin.rev (1 : Fin SIZE) = 2 := rfl
  have r2 : Fin.rev (2 : Fin SIZE) = 1 := rfl
  have r3 : Fin.rev (3 : Fin SIZE) = 0 := rfl
  cases m <;> simp only [gridSum, lineSum, Fin.sum_univ_four, lineOf, cellOf, r0, r1, r2, r3] <;>
    ring

/-- C5: on a grid whose cells can be doubled within `int`, a slide leaves the sum of all
cells unchanged, and the sum of every line (row for left and right, column for up and down)
unchanged. -/
theorem slide_keeps_sum (b : Board) (m : Move) (h : Doubles b.grid) :
    gridSum (b.slide m).1.grid = gridSum b.grid ∧
      ∀ k, lineSum (lineOf m (b.slide m).1.grid k) = lineSum (lineOf m b.grid k) := by
  have hl : ∀ k, lineSum (lineOf m (b.slide m).1.grid k) = lineSum (lineOf m b.grid k) := by
    intro k
    rw [slide_line]
    exact sweptLine_sum _ (fun p => h _ _)
  refine ⟨?_, hl⟩
  rw [gridSum_lines m, gridSum_lines m b.grid]
  exact Finset.sum_congr rfl (fun k _ => hl k)

/-- C5 at the row `[2,2,2,0]` slid left: the sum stays `6`. -/
theorem slide_keeps_sum_witness :
    Doubles chainBoard.grid ∧ gridSum chainBoard.grid = 6 ∧
      gridSum (chainBoard.slide Move.L).1.grid = gridSum chainBoard.grid :=
  ⟨by unfold Doubles; decide, by decide,
    (slide_keeps_sum chainBoard Move.L (by unfold Doubles; decide)).1⟩

/-! ## C6: tile values stay powers of 2 -/

theorem sweptLine_value (l : Line) (p : Fin SIZE) :
    sweptLine l p = 0 ∨ ∃ q, sweptLine l p = l q ∨ (l q ≠ 0 ∧ sweptLine l p = timesTwo (l q)) := by
  have t0 : l 0 = 0 → timesTwo (l 0) = 0 := fun h => by rw [h]; rfl
  have t1 : l 1 = 0 → timesTwo (l 1) = 0 := fun h => by rw [h]; rfl
  have t2 : l 2 = 0 → timesTwo (l 2) = 0 := fun h => by rw [h]; rfl
  obtain ⟨s0, s1, s2, s3⟩ := sweptLine_source l
  rcases fin4_cases p with rfl | rfl | rfl | rfl
  · by_cases h : sweptLine l 0 = 0
    · exact Or.inl h
    · rcases s0 h with e | e | e
      · exact Or.inr ⟨0, Or.inl e⟩
      · exact Or.inr ⟨0, Or.inr ⟨fun c => h (by rw [e, t0 c]), e⟩⟩
      · exact Or.inr ⟨1, Or.inl e⟩
  · by_cases h : sweptLine l 1 = 0
    · exact Or.inl h
    · rcases s1 h with e | e | e
      · exact Or.inr ⟨1, Or.inl e⟩
      · exact Or.inr ⟨1, Or.inr ⟨fun c => h (by rw [e, t1 c]), e⟩⟩
      · exact Or.inr ⟨2, Or.inl e⟩
  · by_cases h : sweptLine l 2 = 0
    · exact Or.inl h
    · rcases s2 h with e | e | e
      · exact Or.inr ⟨2, Or.inl e⟩
      · exact Or.inr ⟨2, Or.inr ⟨fun c => h (by rw [e, t2 c]), e⟩⟩
      · exact Or.inr ⟨3, Or.inl e⟩
  · by_cases h : sweptLine l 3 = 0
    · exact Or.inl h
    · exact Or.inr ⟨3, Or.inl (s3 h)⟩

theorem isTileValue_double (v : Int) (h : IsTileValue v) : IsTileValue (2 * v) := by
  obtain ⟨e, he, rfl⟩ := h
  exact ⟨e + 1, by omega, by rw [pow_succ]; ring⟩

/-- C6: on a grid in which every non-zero cell is a power of 2, at least 2, and can be
doubled within `int`, after `slideLeft`, `slideRight`, `slideUp` or `slideDown` every
non-zero cell is again a power of 2, at least 2. -/
theorem slide_keeps_powers_of_two (b : Board) (m : Move)
    (hp : ∀ i j, b.grid i j = 0 ∨ IsTileValue (b.grid i j)) (hd : Doubles b.grid) :
    ∀ i j, (b.slide m).1.grid i j = 0 ∨ IsTileValue ((b.slide m).1.grid i j) := by
  intro i j
  obtain ⟨k, p, hkp⟩ := cellOf_surj m i j
  have e : (b.slide m).1.grid i j = sweptLine (lineOf m b.grid k) p := by
    rw [← slide_line]; simp [lineOf, hkp]
  rw [e]
  rcases sweptLine_value (lineOf m b.grid k) p with h | ⟨q, h | ⟨hq, h⟩⟩
  · exact Or.inl h
  · rw [h]; exact hp _ _
  · have hb := hd (cellOf m k q).1 (cellOf m k q).2
    rw [h, timesTwo_eq (lineOf m b.grid k q) hb.1 hb.2]
    rcases hp (cellOf m k q).1 (cellOf m k q).2 with z | t
    · exact absurd z hq
    · exact Or.inr (isTileValue_double _ t)

theorem chainBoard_tiles : ∀ i j, chainBoard.grid i j = 0 ∨ IsTileValue (chainBoard.grid i j) := by
  intro i j
  by_cases h : chainBoard.grid i j = 0
  · exact Or.inl h
  · right
    have : chainBoard.grid i j = 2 := by
      revert h; revert i j; decide
    rw [this]; exact ⟨1, le_refl _, rfl⟩

/-- C6 at the row `[2,2,2,0]` slid left: the cell that becomes `4` is a power of 2. -/
theorem slide_keeps_powers_of_two_witness :
    (chainBoard.slide Move.L).1.grid 0 0 = 4 ∧
      ((chainBoard.slide Move.L).1.grid 0 0 = 0 ∨
        IsTileValue ((chainBoard.slide Move.L).1.grid 0 0)) :=
  ⟨by decide, slide_keeps_powers_of_two chainBoard Move.L chainBoard_tiles
    (by unfold Doubles; decide) 0 0⟩

/-! ## C7: a settled grid is a fixed point -/

theorem sweptLine_settled (l : Line)
    (h : ∀ p q : Fin SIZE, q.val = p.val + 1 → l q ≠ 0 → l p ≠ 0 ∧ l p ≠ l q) :
    lineMoved l = false := by
  have h01 := h 0 1 rfl
  have h12 := h 1 2 rfl
  have h23 := h 2 3 rfl
  clear h
  simp only [lineMoved]
  revert h01 h12 h23
  generalize l 0 = a
  generalize l 1 = b
  generalize l 2 = c
  generalize l 3 = d
  intro h01 h12 h23
  by_cases h1 : a = 0 <;> by_cases h2 : b = 0 <;> by_cases h3 : c = 0 <;> by_cases h4 : d = 0 <;>
    by_cases h5 : a = b <;> by_cases h6 : b = c <;> by_cases h7 : c = d <;>
    simp_all [nearAfter, farAfter, fires]

theorem slide_settled (b : Board) (m : Move) (h : Settled m b.grid) : b.slide m = (b, false) := by
  apply slide_idle
  rw [slide_moved, sweptLine_settled _ (h 0), sweptLine_settled _ (h 1),
    sweptLine_settled _ (h 2), sweptLine_settled _ (h 3)]
  rfl

/-- C7: once no merge or move remains possible in any line for a move, the slide reports no
change and leaves every cell unchanged; sliding such a grid twice in succession gives the
same board as sliding once, and the second slide returns `false`. -/
theorem slide_settled_idle (b : Board) (m : Move) (h : Settled m b.grid) :
    (b.slide m).2 = false ∧ (∀ i j, (b.slide m).1.grid i j = b.grid i j) ∧
      ((b.slide m).1.slide m).1 = (b.slide m).1 ∧ ((b.slide m).1.slide m).2 = false := by
  have e := slide_settled b m h
  rw [e]
  simp only [e, and_self, implies_true]

/-- C7 at the row `[2,4,2,0]` slid left: nothing changes. -/
theorem slide_settled_idle_witness :
    Settled Move.L packedBoard.grid ∧ (packedBoard.slide Move.L).2 = false :=
  ⟨by unfold Settled; decide,
    (slide_settled_idle packedBoard Move.L (by unfold Settled; decide)).1⟩

/-! ## C8: hasMoves -/

theorem mem_allIndices (i : Fin SIZE) : i ∈ allIndices := by
  rcases fin4_cases i with rfl | rfl | rfl | rfl <;> simp [allIndices]

theorem mem_pairStarts (j : Fin SIZE) : j ∈ pairStarts ↔ j.val < 3 := by
  revert j; decide

theorem succ_of_val (p q : Fin SIZE) (h : q.val = p.val + 1) : q = p + 1 ∧ p.val < 3 := by
  revert p q; decide

theorem val_of_succ (p : Fin SIZE) (h : p.val < 3) : (p + 1).val = p.val + 1 := by
  revert p; decide

theorem hasMoves_eq_true (b : Board) :
    b.hasMoves = true ↔
      (∃ i j, b.grid i j = 0) ∨
      (∃ i p q : Fin SIZE, q.val = p.val + 1 ∧ b.grid i p = b.grid i q ∧ b.grid i p ≠ 0) ∨
      (∃ j p q : Fin SIZE, q.val = p.val + 1 ∧ b.grid p j = b.grid q j ∧ b.grid p j ≠ 0) := by
  by_cases hz : ∃ i j, b.grid i j = 0
  · have : (allIndices.any fun i => allIndices.any fun j => b.grid i j == 0) = true := by
      obtain ⟨i, j, h⟩ := hz
      exact List.any_eq_true.2 ⟨i, mem_allIndices i,
        List.any_eq_true.2 ⟨j, mem_allIndices j, by simp [h]⟩⟩
    simp only [Board.hasMoves, this, if_true, true_iff]
    exact Or.inl hz
  · have hne : ∀ i j, b.grid i j ≠ 0 := fun i j h => hz ⟨i, j, h⟩
    have : (allIndices.any fun i => allIndices.any fun j => b.grid i j == 0) = false := by
      rw [Bool.eq_false_iff]
      intro c
      obtain ⟨i, -, c⟩ := List.any_eq_true.1 c
      obtain ⟨j, -, c⟩ := List.any_eq_true.1 c
      exact hne i j (by simpa using c)
    simp only [Board.hasMoves, this, Bool.false_eq_true, if_false]
    constructor
    · intro h
      have h' : (allIndices.any fun i => pairStarts.any fun j =>
          b.grid i j == b.grid i (j + 1) || b.grid j i == b.grid (j + 1) i) = true := by
        by_contra c
        simp only [c, if_false] at h
        exact Bool.false_ne_true h
      obtain ⟨i, -, h'⟩ := List.any_eq_true.1 h'
      obtain ⟨j, hj, h'⟩ := List.any_eq_true.1 h'
      have hj' := (mem_pairStarts j).1 hj
      rcases Bool.or_eq_true_iff.1 h' with e | e
      · exact Or.inr (Or.inl ⟨i, j, j + 1, val_of_succ j hj', by simpa using e, hne _ _⟩)
      · exact Or.inr (Or.inr ⟨i, j, j + 1, val_of_succ j hj', by simpa using e, hne _ _⟩)
    · intro h
      have h' : (allIndices.any fun i => pairStarts.any fun j =>
          b.grid i j == b.grid i (j + 1) || b.grid j i == b.grid (j + 1) i) = true := by
        rcases h with h | ⟨i, p, q, hpq, e, -⟩ | ⟨j, p, q, hpq, e, -⟩
        · exact absurd h hz
        · obtain ⟨rfl, hp⟩ := succ_of_val p q hpq
          exact List.any_eq_true.2 ⟨i, mem_allIndices i,
            List.any_eq_true.2 ⟨p, (mem_pairStarts p).2 hp, by simp [e]⟩⟩
        · obtain ⟨rfl, hp⟩ := succ_of_val p q hpq
          exact List.any_eq_true.2 ⟨j, mem_allIndices j,
            List.any_eq_true.2 ⟨p, (mem_pairStarts p).2 hp, by simp [e]⟩⟩
      simp only [h', if_true]

/-- C8: `hasMoves()` returns `true` if and only if some cell is `0`, or two cells in
consecutive columns of a row hold equal non-zero values, or two cells in consecutive rows
of a column do; so a full grid without an equal adjacent pair gives `false`. -/
theorem hasMoves_iff (b : Board) :
    (b.hasMoves = true ↔
      (∃ i j, b.grid i j = 0) ∨
      (∃ i p q : Fin SIZE, q.val = p.val + 1 ∧ b.grid i p = b.grid i q ∧ b.grid i p ≠ 0) ∨
      (∃ j p q : Fin SIZE, q.val = p.val + 1 ∧ b.grid p j = b.grid q j ∧ b.grid p j ≠ 0)) ∧
    ((∀ i j, b.grid i j ≠ 0) →
      (∀ i p q : Fin SIZE, q.val = p.val + 1 → b.grid i p ≠ b.grid i q) →
      (∀ j p q : Fin SIZE, q.val = p.val + 1 → b.grid p j ≠ b.grid q j) →
      b.hasMoves = false) := by
  refine ⟨hasMoves_eq_true b, ?_⟩
  intro h0 hr hc
  rw [Bool.eq_false_iff]
  intro c
  rcases (hasMoves_eq_true b).1 c with ⟨i, j, h⟩ | ⟨i, p, q, hpq, e, -⟩ | ⟨j, p, q, hpq, e, -⟩
  · exact h0 i j h
  · exact hr i p q hpq e
  · exact hc j p q hpq e

/-! ## C9: hasMoves against the four slides -/

theorem lineMoved_pairs (l : Line) :
    lineMoved l = true ↔
      (l 1 ≠ 0 ∧ (l 0 = 0 ∨ l 0 = l 1)) ∨ (l 2 ≠ 0 ∧ (l 1 = 0 ∨ l 1 = l 2)) ∨
        (l 3 ≠ 0 ∧ (l 2 = 0 ∨ l 2 = l 3)) := by
  simp only [lineMoved]
  generalize l 0 = a
  generalize l 1 = b
  generalize l 2 = c
  generalize l 3 = d
  by_cases h1 : a = 0 <;> by_cases h2 : b = 0 <;> by_cases h3 : c = 0 <;> by_cases h4 : d = 0 <;>
    by_cases h5 : a = b <;> by_cases h6 : b = c <;> by_cases h7 : c = d <;>
    simp_all [nearAfter, farAfter, fires]

theorem lineMoved_eq_true (l : Line) :
    lineMoved l = true ↔
      ∃ p q : Fin SIZE, q.val = p.val + 1 ∧ l q ≠ 0 ∧ (l p = 0 ∨ l p = l q) := by
  rw [lineMoved_pairs]
  constructor
  · rintro (h | h | h)
    · exact ⟨0, 1, rfl, h⟩
    · exact ⟨1, 2, rfl, h⟩
    · exact ⟨2, 3, rfl, h⟩
  · rintro ⟨p, q, hpq, h⟩
    obtain ⟨rfl, hp⟩ := succ_of_val p q hpq
    rcases fin4_cases p with rfl | rfl | rfl | rfl
    · exact Or.inl h
    · exact Or.inr (Or.inl h)
    · exact Or.inr (Or.inr h)
    · exact absurd hp (by decide)

/-- A line with an empty and a non-empty cell has an empty cell next to a non-empty one, on
one side or the other. -/
theorem line_mixed (l : Line) (hz : ∃ p, l p = 0) (hn : ∃ p, l p ≠ 0) :
    (∃ p q : Fin SIZE, q.val = p.val + 1 ∧ l q ≠ 0 ∧ l p = 0) ∨
      (∃ p q : Fin SIZE, q.val = p.val + 1 ∧ l (Fin.rev q) ≠ 0 ∧ l (Fin.rev p) = 0) := by
  have r0 : Fin.rev (0 : Fin SIZE) = 3 := rfl
  have r1 : Fin.rev (1 : Fin SIZE) = 2 := rfl
  have r2 : Fin.rev (2 : Fin SIZE) = 1 := rfl
  have r3 : Fin.rev (3 : Fin SIZE) = 0 := rfl
  rw [exists_fin4] at hz hn
  by_cases h0 : l 0 = 0 <;> by_cases h1 : l 1 = 0 <;> by_cases h2 : l 2 = 0 <;>
    by_cases h3 : l 3 = 0 <;> simp only [h0, h1, h2, h3, not_true, not_false_eq_true,
      or_self, or_true, true_or, or_false, false_or, ne_eq] at hz hn
  all_goals first
    | exact Or.inl ⟨0, 1, rfl, h1, h0⟩
    | exact Or.inl ⟨1, 2, rfl, h2, h1⟩
    | exact Or.inl ⟨2, 3, rfl, h3, h2⟩
    | exact Or.inr ⟨0, 1, rfl, by rw [r1]; exact h2, by rw [r0]; exact h3⟩
    | exact Or.inr ⟨1, 2, rfl, by rw [r2]; exact h1, by rw [r1]; exact h2⟩
    | exact Or.inr ⟨2, 3, rfl, by rw [r3]; exact h0, by rw [r2]; exact h1⟩

theorem rev_val_succ (p q : Fin SIZE) (h : q.val = p.val + 1) :
    (Fin.rev p).val = (Fin.rev q).val + 1 := by
  revert p q; decide

theorem hasMoves_of_slide (b : Board) (m : Move) (h : (b.slide m).2 = true) :
    b.hasMoves = true := by
  obtain ⟨k, hk⟩ := (slide_moved_iff m b).1 h
  obtain ⟨p, q, hpq, hq, hp | e⟩ := (lineMoved_eq_true _).1 hk
  · exact (hasMoves_eq_true b).2 (Or.inl ⟨_, _, hp⟩)
  · have hp : lineOf m b.grid k p ≠ 0 := by rw [e]; exact hq
    refine (hasMoves_eq_true b).2 (Or.inr ?_)
    cases m
    · exact Or.inr ⟨k, p, q, hpq, e, hp⟩
    · exact Or.inr ⟨k, Fin.rev q, Fin.rev p, rev_val_succ p q hpq, e.symm, hq⟩
    · exact Or.inl ⟨k, p, q, hpq, e, hp⟩
    · exact Or.inl ⟨k, Fin.rev q, Fin.rev p, rev_val_succ p q hpq, e.symm, hq⟩

theorem slide_of_hasMoves (b : Board) (hn : ∃ i j, b.grid i j ≠ 0) (h : b.hasMoves = true) :
    ∃ m, (b.slide m).2 = true := by
  rcases (hasMoves_eq_true b).1 h with ⟨i, j, hz⟩ | ⟨i, p, q, hpq, e, ne⟩ | ⟨j, p, q, hpq, e, ne⟩
  · obtain ⟨i', j', hn⟩ := hn
    by_cases hrow : ∃ r, (∃ c, b.grid r c = 0) ∧ (∃ c, b.grid r c ≠ 0)
    · obtain ⟨r, hz', hn'⟩ := hrow
      rcases line_mixed (b.grid r) hz' hn' with ⟨p, q, hpq, hq, hp⟩ | ⟨p, q, hpq, hq, hp⟩
      · exact ⟨Move.L, (slide_moved_iff _ b).2 ⟨r, (lineMoved_eq_true _).2
          ⟨p, q, hpq, hq, Or.inl hp⟩⟩⟩
      · exact ⟨Move.R, (slide_moved_iff _ b).2 ⟨r, (lineMoved_eq_true _).2
          ⟨p, q, hpq, hq, Or.inl hp⟩⟩⟩
    · have hall : ∀ r, (∃ c, b.grid r c = 0) → ∀ c, b.grid r c = 0 := by
        intro r hz' c
        by_contra hc
        exact hrow ⟨r, hz', c, hc⟩
      have z0 : b.grid i 0 = 0 := hall i ⟨j, hz⟩ 0
      have n0 : b.grid i' 0 ≠ 0 := fun c => hn (hall i' ⟨0, c⟩ j')
      rcases line_mixed (fun r => b.grid r 0) ⟨i, z0⟩ ⟨i', n0⟩ with
        ⟨p, q, hpq, hq, hp⟩ | ⟨p, q, hpq, hq, hp⟩
      · exact ⟨Move.U, (slide_moved_iff _ b).2 ⟨0, (lineMoved_eq_true _).2
          ⟨p, q, hpq, hq, Or.inl hp⟩⟩⟩
      · exact ⟨Move.D, (slide_moved_iff _ b).2 ⟨0, (lineMoved_eq_true _).2
          ⟨p, q, hpq, hq, Or.inl hp⟩⟩⟩
  · have hq : b.grid i q ≠ 0 := by rw [← e]; exact ne
    exact ⟨Move.L, (slide_moved_iff _ b).2 ⟨i, (lineMoved_eq_true _).2
      ⟨p, q, hpq, hq, Or.inr e⟩⟩⟩
  · have hq : b.grid q j ≠ 0 := by rw [← e]; exact ne
    exact ⟨Move.U, (slide_moved_iff _ b).2 ⟨j, (lineMoved_eq_true _).2
      ⟨p, q, hpq, hq, Or.inr e⟩⟩⟩

/-- C9: on a grid with at least one non-empty cell, `hasMoves()` is `true` if and only if at
least one of `slideLeft`, `slideRight`, `slideUp`, `slideDown` returns `true`, that is,
changes the grid; an equal adjacent pair of tiles makes some slide change the grid, and when
`hasMoves()` is `false` every slide returns `false` and leaves the board unchanged. -/
theorem hasMoves_iff_some_slide (b : Board) (hn : ∃ i j, b.grid i j ≠ 0) :
    (b.hasMoves = true ↔ ∃ m, (b.slide m).2 = true) ∧
    (b.hasMoves = true ↔ ∃ m i j, (b.slide m).1.grid i j ≠ b.grid i j) ∧
    (b.hasMoves = false → ∀ m, b.slide m = (b, false)) := by
  have key : b.hasMoves = true ↔ ∃ m, (b.slide m).2 = true :=
    ⟨slide_of_hasMoves b hn, fun ⟨m, hm⟩ => hasMoves_of_slide b m hm⟩
  refine ⟨key, ?_, ?_⟩
  · rw [key]
    constructor
    · rintro ⟨m, hm⟩
      by_contra c
      have hs : b.slide m = (b, false) := by
        apply slide_idle
        by_contra c'
        have c'' : (b.slide m).2 = true := by simpa using c'
        obtain ⟨k, hk⟩ := (slide_moved_iff m b).1 c''
        obtain ⟨p, hp⟩ := (lineMoved_iff _).1 hk
        rw [← slide_line] at hp
        exact c ⟨m, _, _, hp⟩
      rw [hs] at hm
      exact Bool.false_ne_true hm
    · rintro ⟨m, i, j, hij⟩
      refine ⟨m, ?_⟩
      by_contra c
      have hs : b.slide m = (b, false) := slide_idle b m (by simpa using c)
      rw [hs] at hij
      exact hij rfl
  · intro h m
    apply slide_idle
    by_contra c
    have c' : (b.slide m).2 = true := by simpa using c
    rw [hasMoves_of_slide b m c'] at h
    exact Bool.false_ne_true h.symm

/-- C9 at the row `[2,2,2,0]`: `hasMoves()` is `true` and `slideLeft` returns `true`. -/
theorem hasMoves_iff_some_slide_witness :
    (∃ i j, chainBoard.grid i j ≠ 0) ∧ chainBoard.hasMoves = true ∧
      (chainBoard.slide Move.L).2 = true ∧
      (chainBoard.hasMoves = true ↔ ∃ m, (chainBoard.slide m).2 = true) :=
  ⟨⟨0, 0, by decide⟩, by decide, by decide,
    (hasMoves_iff_some_slide chainBoard ⟨0, 0, by decide⟩).1⟩

/-! ## C10: hasWon -/

/-- C10: `hasWon()` returns `true` if and only if some cell equals the target exactly,
whatever the other cells hold. -/
theorem hasWon_iff (b : Board) : b.hasWon = true ↔ ∃ i j, b.grid i j = b.target := by
  unfold Board.hasWon
  constructor
  · intro h
    obtain ⟨i, -, h⟩ := List.any_eq_true.1 h
    obtain ⟨j, -, h⟩ := List.any_eq_true.1 h
    exact ⟨i, j, by simpa using h⟩
  · rintro ⟨i, j, h⟩
    exact List.any_eq_true.2 ⟨i, mem_allIndices i,
      List.any_eq_true.2 ⟨j, mem_allIndices j, by simp [h]⟩⟩

/-- C10 at a board holding the target `256` in one cell: `hasWon()` is `true`. -/
theorem hasWon_iff_witness : wonBoard.target = 256 ∧ wonBoard.hasWon = true :=
  ⟨rfl, (hasWon_iff wonBoard).2 ⟨2, 1, by decide⟩⟩

/-! ## The empty cells -/

theorem foldl_push {α β : Type} (p : α → Prop) [DecidablePred p] (f : α → β) (l : List α)
    (init : List β) :
    l.foldl (fun acc x => if p x then acc ++ [f x] else acc) init =
      init ++ (l.filter (fun x => decide (p x))).map f := by
  induction l generalizing init with
  | nil => simp
  | cons x xs ih =>
    simp only [List.foldl_cons, ih]
    by_cases h : p x <;> simp [h, List.filter_cons]

theorem foldl_append_flatMap {α β : Type} (h : α → List β) (l : List α) (init : List β) :
    l.foldl (fun acc i => acc ++ h i) init = init ++ l.flatMap h := by
  induction l generalizing init with
  | nil => simp
  | cons x xs ih => simp [List.foldl_cons, ih, List.flatMap_cons]

theorem emptyCells_eq (g : Grid) :
    emptyCells g = allIndices.flatMap (fun i =>
      (allIndices.filter (fun j => decide (g i j = 0))).map (fun j => (i, j))) := by
  unfold emptyCells
  have h : ∀ (i : Fin SIZE) (cells : List (Fin SIZE × Fin SIZE)),
      allIndices.foldl (fun cells j => if g i j = 0 then cells ++ [(i, j)] else cells) cells =
        cells ++ (allIndices.filter (fun j => decide (g i j = 0))).map (fun j => (i, j)) :=
    fun i cells => foldl_push (fun j => g i j = 0) (fun j => (i, j)) allIndices cells
  simp only [h]
  rw [foldl_append_flatMap]
  rfl

theorem mem_emptyCells (g : Grid) (c : Fin SIZE × Fin SIZE) :
    c ∈ emptyCells g ↔ g c.1 c.2 = 0 := by
  rw [emptyCells_eq]
  simp only [List.mem_flatMap, List.mem_map, List.mem_filter, decide_eq_true_eq]
  constructor
  · rintro ⟨i, -, j, ⟨-, h⟩, rfl⟩
    exact h
  · intro h
    exact ⟨c.1, mem_allIndices _, c.2, ⟨mem_allIndices _, h⟩, rfl⟩

theorem nodup_emptyCells (g : Grid) : (emptyCells g).Nodup := by
  rw [emptyCells_eq, List.nodup_flatMap]
  constructor
  · intro i _
    refine List.Nodup.map ?_ (List.Nodup.filter _ (by decide))
    intro a b h
    exact (Prod.ext_iff.1 h).2
  · have hd : ∀ i i' : Fin SIZE, i ≠ i' →
        List.Disjoint ((allIndices.filter (fun j => decide (g i j = 0))).map (fun j => (i, j)))
          ((allIndices.filter (fun j => decide (g i' j = 0))).map (fun j => (i', j))) := by
      intro i i' hne c h1 h2
      obtain ⟨j, -, rfl⟩ := List.mem_map.1 h1
      obtain ⟨j', -, e⟩ := List.mem_map.1 h2
      exact hne (Prod.ext_iff.1 e).1.symm
    have hn : allIndices.Pairwise (fun i i' => i ≠ i') := by decide
    exact List.Pairwise.imp (fun hne => hd _ _ hne) hn

theorem cellAt_some (cells : List (Fin SIZE × Fin SIZE)) (d : Int) (h1 : 1 ≤ d)
    (h2 : d ≤ cells.length) :
    ∃ c, cellAt cells (d - 1) = some c ∧ c ∈ cells ∧
      cells.get? (d - 1).toNat = some c := by
  have hlt : (d - 1).toNat < cells.length := by omega
  refine ⟨cells.get ⟨(d - 1).toNat, hlt⟩, ?_, List.get_mem _ _ _, ?_⟩
  · unfold cellAt
    rw [if_pos (by omega)]
    exact List.get?_eq_get hlt
  · exact List.get?_eq_get hlt

theorem spawnValue_two_or_four (mode d : Int) : spawnValue mode d = 2 ∨ spawnValue mode d = 4 := by
  unfold spawnValue
  split_ifs <;> simp

theorem emptyCells_ne_nil (g : Grid) (h : ∃ i j, g i j = 0) : emptyCells g ≠ [] := by
  obtain ⟨i, j, h⟩ := h
  intro c
  have := (mem_emptyCells g (i, j)).2 h
  rw [c] at this
  exact List.not_mem_nil _ this

theorem emptyCells_eq_nil (g : Grid) (h : ∀ i j, g i j ≠ 0) : emptyCells g = [] := by
  apply List.eq_nil_iff_forall_not_mem.2
  intro c hc
  exact h _ _ ((mem_emptyCells g c).1 hc)

/-- What `addRandomNumber` does on a board with an empty cell when the cell draw is in range:
it writes the spawn value into the empty cell the draw selects, after two draws. -/
theorem addRandomNumber_spawn (mode : Int) (b : Board) (r : Rng) (h : ∃ i j, b.grid i j = 0)
    (h1 : 1 ≤ r.draw r.calls 1 (emptyCells b.grid).length)
    (h2 : r.draw r.calls 1 (emptyCells b.grid).length ≤ (emptyCells b.grid).length) :
    ∃ c, b.grid c.1 c.2 = 0 ∧
      (emptyCells b.grid).get? (r.draw r.calls 1 (emptyCells b.grid).length - 1).toNat = some c ∧
      b.addRandomNumber mode r =
        some ({ b with grid :=
                  (setCell b.grid c.1 c.2 (spawnValue mode (r.draw (r.calls + 1) 1 10))) },
              { r with calls := r.calls + 2 }) := by
  obtain ⟨c, hc, hm, hg⟩ := cellAt_some (emptyCells b.grid) _ h1 h2
  refine ⟨c, (mem_emptyCells _ _).1 hm, hg, ?_⟩
  have hne : (emptyCells b.grid).isEmpty = false := by
    cases he : emptyCells b.grid with
    | nil => exact absurd he (emptyCells_ne_nil _ h)
    | cons x xs => rfl
  simp only [Board.addRandomNumber, hne, Bool.false_eq_true, if_false, chooseRandomNumber, hc]

theorem addRandomNumber_full (mode : Int) (b : Board) (r : Rng) (h : ∀ i j, b.grid i j ≠ 0) :
    b.addRandomNumber mode r = some (b, r) := by
  simp [Board.addRandomNumber, emptyCells_eq_nil _ h]

/-! ## C11: a spawn fills one empty cell -/

/-- C11: on a grid with at least one empty cell, for every mode and every cell draw between
1 and the number of empty cells (and whatever the value draw), `addRandomNumber` changes
exactly one cell: that cell was empty, it now holds 2 or 4, and every other cell and the
target are unchanged; so when the grid has exactly one empty cell, that cell is filled. -/
theorem addRandomNumber_fills_one (mode : Int) (b : Board) (r : Rng)
    (h : ∃ i j, b.grid i j = 0)
    (h1 : 1 ≤ r.draw r.calls 1 (emptyCells b.grid).length)
    (h2 : r.draw r.calls 1 (emptyCells b.grid).length ≤ (emptyCells b.grid).length) :
    ∃ s c, b.addRandomNumber mode r = some s ∧ b.grid c.1 c.2 = 0 ∧
      (s.1.grid c.1 c.2 = 2 ∨ s.1.grid c.1 c.2 = 4) ∧
      (∀ i j, (i, j) ≠ c → s.1.grid i j = b.grid i j) ∧
      s.1.target = b.target ∧
      (∀ c0 : Fin SIZE × Fin SIZE, (∀ i j, b.grid i j = 0 → (i, j) = c0) → c = c0) := by
  obtain ⟨c, hc, -, hs⟩ := addRandomNumber_spawn mode b r h h1 h2
  refine ⟨_, c, hs, hc, ?_, ?_, rfl, ?_⟩
  · simpa [setCell_apply] using spawnValue_two_or_four mode (r.draw (r.calls + 1) 1 10)
  · intro i j hij
    have : ¬ (i = c.1 ∧ j = c.2) := fun e => hij (Prod.ext e.1 e.2)
    simp [setCell_apply, this]
  · intro c0 h0
    exact h0 c.1 c.2 hc

/-- C11 at the board whose only tile is in the first cell, with lowest draws: the spawn
succeeds and fills an empty cell. -/
theorem addRandomNumber_fills_one_witness :
    ∃ s c, cornerTile.addRandomNumber 3 lowest = some s ∧ cornerTile.grid c.1 c.2 = 0 ∧
      (s.1.grid c.1 c.2 = 2 ∨ s.1.grid c.1 c.2 = 4) ∧
      (∀ i j, (i, j) ≠ c → s.1.grid i j = cornerTile.grid i j) ∧
      s.1.target = cornerTile.target ∧
      (∀ c0 : Fin SIZE × Fin SIZE, (∀ i j, cornerTile.grid i j = 0 → (i, j) = c0) → c = c0) :=
  addRandomNumber_fills_one 3 cornerTile lowest ⟨0, 1, by decide⟩ (by decide) (by decide)

/-! ## C12: a spawn on a full grid -/

/-- C12: on a grid with no empty cell, for every mode, `addRandomNumber` returns with every
cell unchanged and without drawing a random number. -/
theorem addRandomNumber_full_grid (mode : Int) (b : Board) (r : Rng)
    (h : ∀ i j, b.grid i j ≠ 0) :
    ∃ s, b.addRandomNumber mode r = some s ∧ (∀ i j, s.1.grid i j = b.grid i j) ∧
      s.1 = b ∧ s.2.calls = r.calls ∧ s.2 = r :=
  ⟨(b, r), addRandomNumber_full mode b r h, fun _ _ => rfl, rfl, rfl, rfl⟩

/-- C12 at the board full of `2`: the spawn leaves the board and the generator alone. -/
theorem addRandomNumber_full_grid_witness :
    ∃ s, fullBoard.addRandomNumber 1 lowest = some s ∧
      (∀ i j, s.1.grid i j = fullBoard.grid i j) ∧ s.1 = fullBoard ∧
      s.2.calls = lowest.calls ∧ s.2 = lowest :=
  addRandomNumber_full_grid 1 fullBoard lowest (by decide)

/-! ## C13: the value of the spawned tile -/

/-- C13: the tile spawned for a value draw `d` is 4 if and only if `d` exceeds the threshold
of the mode (Easy, mode 1: 5; Medium, mode 2: 7; Hard, mode 3: 9) and is 2 otherwise; of the
ten draws 1..10 exactly 5, 3 and 1 give a 4; and `addRandomNumber` writes that value into
the cell it fills. -/
theorem spawn_value_threshold :
    (∀ (md : Mode) (d : Int), spawnValue md.code d = 4 ↔ md.threshold < d) ∧
    (∀ (md : Mode) (d : Int), spawnValue md.code d = 2 ↔ ¬ md.threshold < d) ∧
    (valueDraws.filter (fun d => decide (spawnValue Mode.Easy.code d = 4))).length = 5 ∧
    (valueDraws.filter (fun d => decide (spawnValue Mode.Medium.code d = 4))).length = 3 ∧
    (valueDraws.filter (fun d => decide (spawnValue Mode.Hard.code d = 4))).length = 1 ∧
    (∀ (md : Mode) (b : Board) (r : Rng), (∃ i j, b.grid i j = 0) →
      1 ≤ r.draw r.calls 1 (emptyCells b.grid).length →
      r.draw r.calls 1 (emptyCells b.grid).length ≤ (emptyCells b.grid).length →
      ∃ (s : Board × Rng) (c : Fin SIZE × Fin SIZE),
        b.addRandomNumber md.code r = some s ∧ b.grid c.1 c.2 = 0 ∧
        (s.1.grid c.1 c.2 = 4 ↔ md.threshold < r.draw (r.calls + 1) 1 10) ∧
        (s.1.grid c.1 c.2 = 2 ↔ ¬ md.threshold < r.draw (r.calls + 1) 1 10)) := by
  have k4 : ∀ (md : Mode) (d : Int), spawnValue md.code d = 4 ↔ md.threshold < d := by
    intro md d
    cases md <;> simp only [spawnValue, Mode.code, Mode.threshold] <;> split_ifs <;> simp_all
  have k2 : ∀ (md : Mode) (d : Int), spawnValue md.code d = 2 ↔ ¬ md.threshold < d := by
    intro md d
    cases md <;> simp only [spawnValue, Mode.code, Mode.threshold] <;> split_ifs <;> simp_all
  refine ⟨k4, k2, by decide, by decide, by decide, ?_⟩
  intro md b r h h1 h2
  obtain ⟨c, hc, -, hs⟩ := addRandomNumber_spawn md.code b r h h1 h2
  refine ⟨_, c, hs, hc, ?_, ?_⟩
  · simpa [setCell_apply] using k4 md (r.draw (r.calls + 1) 1 10)
  · simpa [setCell_apply] using k2 md (r.draw (r.calls + 1) 1 10)

/-! ## C14: the spawn step of a turn -/

/-- C14, as stated, fails: on the board whose only tile is in the first cell, `slideLeft`
reports no change, and the turn still fills the empty cell next to it. -/
theorem turn_spawns_after_idle_slide :
    (cornerTile.slide Move.L).2 = false ∧
      ∃ s, turn 3 Move.L cornerTile lowest = some s ∧ cornerTile.grid 0 1 = 0 ∧
        s.1.grid 0 1 = 2 ∧ s.1.grid ≠ cornerTile.grid := by
  refine ⟨by decide, _, rfl, by decide, by decide, ?_⟩
  intro c
  have := congrFun (congrFun c 0) 1
  revert this
  decide

/-- C14 (amended): a turn runs the spawn step whether or not the slide changed the grid. When
the slide reports no change, the grid after the turn equals the grid before it if the grid
has no empty cell; if it has one and the cell draw is in range, the grid after the turn is
the grid before it with exactly one empty cell filled with 2 or 4. -/
theorem turn_after_idle_slide (mode : Int) (m : Move) (b : Board) (r : Rng)
    (hidle : (b.slide m).2 = false) :
    ((∀ i j, b.grid i j ≠ 0) → turn mode m b r = some (b, r)) ∧
    ((∃ i j, b.grid i j = 0) →
      1 ≤ r.draw r.calls 1 (emptyCells b.grid).length →
      r.draw r.calls 1 (emptyCells b.grid).length ≤ (emptyCells b.grid).length →
      ∃ (s : Board × Rng) (c : Fin SIZE × Fin SIZE), turn mode m b r = some s ∧
        b.grid c.1 c.2 = 0 ∧ (s.1.grid c.1 c.2 = 2 ∨ s.1.grid c.1 c.2 = 4) ∧
        ∀ i j, (i, j) ≠ c → s.1.grid i j = b.grid i j) := by
  have e : (b.slide m).1 = b := by rw [slide_idle b m hidle]
  unfold turn
  rw [e]
  constructor
  · intro h
    exact addRandomNumber_full mode b r h
  · intro h h1 h2
    obtain ⟨c, hc, -, hs⟩ := addRandomNumber_spawn mode b r h h1 h2
    refine ⟨_, c, hs, hc, ?_, ?_⟩
    · simpa [setCell_apply] using spawnValue_two_or_four mode (r.draw (r.calls + 1) 1 10)
    · intro i j hij
      have : ¬ (i = c.1 ∧ j = c.2) := fun e => hij (Prod.ext e.1 e.2)
      simp [setCell_apply, this]

/-- C14 (amended) at the board whose only tile is in the first cell, slid left: the slide
is idle and the turn fills one empty cell. -/
theorem turn_after_idle_slide_witness :
    (cornerTile.slide Move.L).2 = false ∧
      ∃ (s : Board × Rng) (c : Fin SIZE × Fin SIZE), turn 3 Move.L cornerTile lowest = some s ∧
        cornerTile.grid c.1 c.2 = 0 ∧ (s.1.grid c.1 c.2 = 2 ∨ s.1.grid c.1 c.2 = 4) ∧
        ∀ i j, (i, j) ≠ c → s.1.grid i j = cornerTile.grid i j :=
  ⟨by decide, (turn_after_idle_slide 3 Move.L cornerTile lowest (by decide)).2
    ⟨0, 1, by decide⟩ (by decide) (by decide)⟩

/-! ## C15: the tiles of a game stay powers of 2 up to the target -/

theorem addRandomNumber_cells (mode : Int) (b : Board) (r : Rng) (s : Board × Rng)
    (h : b.addRandomNumber mode r = some s) :
    s.1.target = b.target ∧
      ∀ i j, s.1.grid i j = b.grid i j ∨ s.1.grid i j = 2 ∨ s.1.grid i j = 4 := by
  unfold Board.addRandomNumber at h
  by_cases he : (emptyCells b.grid).isEmpty = true
  · simp only [he, if_true, Option.some.injEq] at h
    subst h
    exact ⟨rfl, fun _ _ => Or.inl rfl⟩
  · simp only [he, Bool.false_eq_true, if_false] at h
    cases hc : cellAt (emptyCells b.grid)
        ((chooseRandomNumber 1 (emptyCells b.grid).length r).1 - 1) with
    | none => simp [hc] at h
    | some c =>
      simp only [hc, Option.some.injEq] at h
      subst h
      refine ⟨rfl, fun i j => ?_⟩
      simp only [setCell_apply]
      split_ifs
      · exact Or.inr (spawnValue_two_or_four _ _)
      · exact Or.inl rfl

theorem hasWon_eq_false (b : Board) (h : b.hasWon = false) : ∀ i j, b.grid i j ≠ b.target := by
  intro i j e
  have : b.hasWon = true :=
    List.any_eq_true.2 ⟨i, mem_allIndices i,
      List.any_eq_true.2 ⟨j, mem_allIndices j, by simp [e]⟩⟩
  rw [h] at this
  exact Bool.false_ne_true this

theorem tile_exponent_le (e : Nat) (h : (2 : Int) ^ e ≤ 1024) : e ≤ 10 := by
  by_contra c
  have h11 : (2 : Int) ^ 11 ≤ 2 ^ e := pow_le_pow_right₀ (by norm_num) (by omega)
  norm_num at h11
  omega

/-- Below a target of a mode, a tile value can be doubled without passing the target. -/
theorem double_below_target (md : Mode) (x : Int) (hx : IsTileValue x)
    (hle : x ≤ targetOf md.code) (hne : x ≠ targetOf md.code) :
    2 * x ≤ targetOf md.code ∧ x < 1073741824 := by
  obtain ⟨e, he, rfl⟩ := hx
  have ht : targetOf md.code ≤ 1024 := by cases md <;> decide
  have he10 := tile_exponent_le e (le_trans hle ht)
  interval_cases e <;> cases md <;> simp [targetOf, Mode.code] at hle hne ⊢

theorem tilesUpTo_slide (md : Mode) (b : Board) (m : Move)
    (ht : b.target = targetOf md.code) (h : TilesUpTo b.target b.grid)
    (hw : b.hasWon = false) : TilesUpTo b.target (b.slide m).1.grid := by
  intro i j
  obtain ⟨k, p, hkp⟩ := cellOf_surj m i j
  have e : (b.slide m).1.grid i j = sweptLine (lineOf m b.grid k) p := by
    rw [← slide_line]; simp [lineOf, hkp]
  rw [e]
  rcases sweptLine_value (lineOf m b.grid k) p with h0 | ⟨q, h1 | ⟨hq, h1⟩⟩
  · exact Or.inl h0
  · rw [h1]; exact h _ _
  · rcases h (cellOf m k q).1 (cellOf m k q).2 with z | ⟨tv, le⟩
    · exact absurd z hq
    · have hne := hasWon_eq_false b hw (cellOf m k q).1 (cellOf m k q).2
      rw [ht] at le hne
      obtain ⟨d1, d2⟩ := double_below_target md _ tv le hne
      have pos : (0 : Int) < b.grid (cellOf m k q).1 (cellOf m k q).2 := by
        obtain ⟨e', -, he'⟩ := tv
        rw [he']; positivity
      rw [h1, timesTwo_eq (lineOf m b.grid k q) (by unfold lineOf; omega) d2]
      exact Or.inr ⟨isTileValue_double _ tv, by rw [ht]; exact d1⟩

theorem tilesUpTo_spawn (md : Mode) (b : Board) (r : Rng) (s : Board × Rng)
    (ht : b.target = targetOf md.code) (h : TilesUpTo b.target b.grid)
    (hs : b.addRandomNumber md.code r = some s) :
    s.1.target = targetOf md.code ∧ TilesUpTo s.1.target s.1.grid := by
  obtain ⟨e, hc⟩ := addRandomNumber_cells _ b r s hs
  have h256 : (256 : Int) ≤ targetOf md.code := by cases md <;> decide
  refine ⟨by rw [e, ht], fun i j => ?_⟩
  rw [e]
  rcases hc i j with c | c | c
  · rw [c]; exact h i j
  · rw [c]; exact Or.inr ⟨⟨1, le_refl _, rfl⟩, by rw [ht]; omega⟩
  · rw [c]; exact Or.inr ⟨⟨2, by omega, rfl⟩, by rw [ht]; omega⟩

theorem reachable_tiles (md : Mode) (b : Board) (h : Reachable md.code b) :
    b.target = targetOf md.code ∧ TilesUpTo b.target b.grid := by
  induction h with
  | start r s hs =>
    unfold startGame at hs
    cases h1 : (Board.new (targetOf md.code)).addRandomNumber md.code r with
    | none => simp [h1] at hs
    | some s1 =>
      simp only [h1] at hs
      have i0 : TilesUpTo (Board.new (targetOf md.code)).target (Board.new (targetOf md.code)).grid :=
        fun _ _ => Or.inl rfl
      obtain ⟨t1, i1⟩ := tilesUpTo_spawn md _ r s1 rfl i0 h1
      exact tilesUpTo_spawn md _ _ s t1 i1 hs
  | step b m r s _ hw hs ih =>
    obtain ⟨t, i⟩ := ih
    have i' := tilesUpTo_slide md b m t i hw
    have t' : (b.slide m).1.target = targetOf md.code := by rw [slide_target, t]
    rw [← slide_target m b] at i'
    exact tilesUpTo_spawn md _ r s t' i' hs

/-- C15: for each mode, with its target 256, 512 or 1024, every board the game reaches (from
the empty board seeded by two spawns, stepping only from boards on which `hasWon()` is
`false` by one slide followed by one spawn) has each non-zero cell equal to a power of 2
that is at least 2 and at most the target. -/
theorem reachable_tiles_up_to_target (md : Mode) (b : Board) (h : Reachable md.code b) :
    (targetOf md.code = 256 ∨ targetOf md.code = 512 ∨ targetOf md.code = 1024) ∧
      b.target = targetOf md.code ∧
      ∀ i j, b.grid i j = 0 ∨ (IsTileValue (b.grid i j) ∧ b.grid i j ≤ targetOf md.code) := by
  obtain ⟨t, i⟩ := reachable_tiles md b h
  refine ⟨by cases md <;> decide, t, ?_⟩
  rw [← t]
  exact i

/-- C15 at the board a Hard game starts with under lowest draws. -/
theorem reachable_tiles_up_to_target_witness :
    ∃ s, startGame Mode.Hard.code lowest = some s ∧ Reachable Mode.Hard.code s.1 ∧
      ∀ i j, s.1.grid i j = 0 ∨
        (IsTileValue (s.1.grid i j) ∧ s.1.grid i j ≤ targetOf Mode.Hard.code) :=
  ⟨_, rfl, Reachable.start lowest _ rfl,
    (reachable_tiles_up_to_target Mode.Hard _ (Reachable.start lowest _ rfl)).2.2⟩

/-! ## C16: the start of a game -/

theorem inRange_lowest : InRange lowest := fun _ _ _ h => ⟨le_refl _, h⟩

theorem emptyCells_length (g : Grid) :
    (emptyCells g).length =
      (Finset.univ.filter (fun c : Fin SIZE × Fin SIZE => g c.1 c.2 = 0)).card := by
  rw [← List.toFinset_card_of_nodup (nodup_emptyCells g)]
  congr 1
  ext c
  simp [mem_emptyCells]

theorem emptyCells_length_pos (g : Grid) (h : ∃ i j, g i j = 0) : 1 ≤ (emptyCells g).length := by
  have := emptyCells_ne_nil g h
  cases he : emptyCells g with
  | nil => exact absurd he this
  | cons x xs => simp

/-- C16: for every mode and every generator that keeps its draws in range, constructing the
board and calling `addRandomNumber` twice gives a grid with exactly two non-empty cells, at
distinct positions, each holding 2 or 4, and 14 empty cells. -/
theorem start_has_two_tiles (mode : Int) (r : Rng) (h : InRange r) :
    ∃ (s : Board × Rng) (c1 c2 : Fin SIZE × Fin SIZE), startGame mode r = some s ∧ c1 ≠ c2 ∧
      (s.1.grid c1.1 c1.2 = 2 ∨ s.1.grid c1.1 c1.2 = 4) ∧
      (s.1.grid c2.1 c2.2 = 2 ∨ s.1.grid c2.1 c2.2 = 4) ∧
      (∀ i j, (i, j) ≠ c1 → (i, j) ≠ c2 → s.1.grid i j = 0) ∧
      (emptyCells s.1.grid).length = 14 := by
  have z0 : ∃ i j, (Board.new (targetOf mode)).grid i j = 0 := ⟨0, 0, rfl⟩
  have n0 := emptyCells_length_pos _ z0
  have r0 := h r.calls 1 (emptyCells (Board.new (targetOf mode)).grid).length (by omega)
  obtain ⟨c1, -, -, hs1⟩ := addRandomNumber_spawn mode _ r z0 r0.1 r0.2
  have v1 := spawnValue_two_or_four mode (r.draw (r.calls + 1) 1 10)
  generalize spawnValue mode (r.draw (r.calls + 1) 1 10) = w1 at hs1 v1
  generalize hb1 : ({ Board.new (targetOf mode) with
    grid := (setCell (Board.new (targetOf mode)).grid c1.1 c1.2 w1) } : Board) = b1 at hs1
  generalize hr1 : ({ r with calls := r.calls + 2 } : Rng) = r1 at hs1
  have g1 : ∀ i j, b1.grid i j = if i = c1.1 ∧ j = c1.2 then w1 else 0 := by
    intro i j; rw [← hb1]; rfl
  have z1 : ∃ i j, b1.grid i j = 0 := by
    by_cases hc : c1 = (0, 0)
    · refine ⟨0, 1, ?_⟩
      rw [g1, hc]; simp
    · refine ⟨0, 0, ?_⟩
      rw [g1, if_neg]
      intro e
      exact hc (Prod.ext e.1.symm e.2.symm)
  have n1 := emptyCells_length_pos _ z1
  have hr1' : InRange r1 := by rw [← hr1]; exact h
  have r1' := hr1' r1.calls 1 (emptyCells b1.grid).length (by omega)
  obtain ⟨c2, hc2, -, hs2⟩ := addRandomNumber_spawn mode b1 r1 z1 r1'.1 r1'.2
  have v2 := spawnValue_two_or_four mode (r1.draw (r1.calls + 1) 1 10)
  generalize spawnValue mode (r1.draw (r1.calls + 1) 1 10) = w2 at hs2 v2
  have w1ne : w1 ≠ 0 := by rcases v1 with e | e <;> rw [e] <;> decide
  have w2ne : w2 ≠ 0 := by rcases v2 with e | e <;> rw [e] <;> decide
  have hne : c1 ≠ c2 := by
    intro e
    rw [g1, ← e, if_pos ⟨rfl, rfl⟩] at hc2
    exact w1ne hc2
  have g2 : ∀ i j, (setCell b1.grid c2.1 c2.2 w2) i j =
      if i = c2.1 ∧ j = c2.2 then w2 else if i = c1.1 ∧ j = c1.2 then w1 else 0 := by
    intro i j
    rw [setCell_apply, g1]
  refine ⟨(({ b1 with grid := (setCell b1.grid c2.1 c2.2 w2) } : Board),
    ({ r1 with calls := r1.calls + 2 } : Rng)), c1, c2, ?_, hne, ?_, ?_, ?_, ?_⟩
  · unfold startGame
    rw [hs1]
    exact hs2
  · show (setCell b1.grid c2.1 c2.2 w2) c1.1 c1.2 = 2 ∨ (setCell b1.grid c2.1 c2.2 w2) c1.1 c1.2 = 4
    rw [g2, if_neg (fun e => hne (Prod.ext e.1 e.2)), if_pos ⟨rfl, rfl⟩]
    exact v1
  · show (setCell b1.grid c2.1 c2.2 w2) c2.1 c2.2 = 2 ∨ (setCell b1.grid c2.1 c2.2 w2) c2.1 c2.2 = 4
    rw [g2, if_pos ⟨rfl, rfl⟩]
    exact v2
  · intro i j h1 h2
    show (setCell b1.grid c2.1 c2.2 w2) i j = 0
    rw [g2, if_neg (fun e => h2 (Prod.ext e.1 e.2)), if_neg (fun e => h1 (Prod.ext e.1 e.2))]
  · show (emptyCells (setCell b1.grid c2.1 c2.2 w2)).length = 14
    rw [emptyCells_length]
    have hS : (Finset.univ.filter (fun c : Fin SIZE × Fin SIZE =>
        (setCell b1.grid c2.1 c2.2 w2) c.1 c.2 = 0)) = ({c1, c2} : Finset _)ᶜ := by
      ext c
      simp only [Finset.mem_filter, Finset.mem_univ, true_and, Finset.mem_compl,
        Finset.mem_insert, Finset.mem_singleton, g2]
      by_cases e2 : c = c2
      · subst e2; simp [w2ne]
      · by_cases e1 : c = c1
        · subst e1
          have : ¬ (c.1 = c2.1 ∧ c.2 = c2.2) := fun e => e2 (Prod.ext e.1 e.2)
          simp [this, w1ne]
        · have a2 : ¬ (c.1 = c2.1 ∧ c.2 = c2.2) := fun e => e2 (Prod.ext e.1 e.2)
          have a1 : ¬ (c.1 = c1.1 ∧ c.2 = c1.2) := fun e => e1 (Prod.ext e.1 e.2)
          simp [a1, a2, e1, e2]
    rw [hS, Finset.card_compl, Finset.card_pair hne]
    simp only [Fintype.card_prod, Fintype.card_fin]
    rfl

/-- C16 for a Hard game under lowest draws. -/
theorem start_has_two_tiles_witness :
    InRange lowest ∧
    ∃ (s : Board × Rng) (c1 c2 : Fin SIZE × Fin SIZE), startGame 3 lowest = some s ∧ c1 ≠ c2 ∧
      (s.1.grid c1.1 c1.2 = 2 ∨ s.1.grid c1.1 c1.2 = 4) ∧
      (s.1.grid c2.1 c2.2 = 2 ∨ s.1.grid c2.1 c2.2 = 4) ∧
      (∀ i j, (i, j) ≠ c1 → (i, j) ≠ c2 → s.1.grid i j = 0) ∧
      (emptyCells s.1.grid).length = 14 :=
  ⟨inRange_lowest, start_has_two_tiles 3 lowest inRange_lowest⟩

/-! ## C17: which empty cell a draw selects -/

theorem emptyCells_rowMajor (g : Grid) : (emptyCells g).Pairwise rowMajorBefore := by
  rw [emptyCells_eq, List.pairwise_flatMap]
  have hlt : allIndices.Pairwise (fun a b => a < b) := by decide
  constructor
  · intro i _
    rw [List.pairwise_map]
    exact List.Pairwise.filter _ (List.Pairwise.imp (fun h => Or.inr ⟨rfl, h⟩) hlt)
  · refine List.Pairwise.imp ?_ hlt
    intro i i' h x hx y hy
    obtain ⟨j, -, rfl⟩ := List.mem_map.1 hx
    obtain ⟨j', -, rfl⟩ := List.mem_map.1 hy
    exact Or.inl h

theorem cellAt_inj (cells : List (Fin SIZE × Fin SIZE)) (hn : cells.Nodup) (d d' : Int)
    (h1 : 1 ≤ d) (h2 : d ≤ cells.length) (h1' : 1 ≤ d') (h2' : d' ≤ cells.length)
    (e : cellAt cells (d - 1) = cellAt cells (d' - 1)) : d = d' := by
  have hlt : (d - 1).toNat < cells.length := by omega
  have hlt' : (d' - 1).toNat < cells.length := by omega
  unfold cellAt at e
  rw [if_pos (by omega), if_pos (by omega), List.get?_eq_get hlt, List.get?_eq_get hlt'] at e
  have e' := (List.Nodup.get_inj_iff hn).1 (Option.some.inj e)
  have := congrArg Fin.val e'
  simp only at this
  omega

theorem cellAt_surj (cells : List (Fin SIZE × Fin SIZE)) (c : Fin SIZE × Fin SIZE)
    (hc : c ∈ cells) : ∃ d : Int, 1 ≤ d ∧ d ≤ cells.length ∧ cellAt cells (d - 1) = some c := by
  obtain ⟨n, e⟩ := List.mem_iff_get.1 hc
  have hn := n.2
  refine ⟨(n.1 : Int) + 1, by omega, by omega, ?_⟩
  unfold cellAt
  rw [if_pos (by omega)]
  have : ((n.1 : Int) + 1 - 1).toNat = n.1 := by omega
  rw [this, List.get?_eq_get n.2]
  exact congrArg some e

/-- C17: on a grid with `n ≥ 1` empty cells, listed in row-major order, the cell draw `d`
in `[1, n]` makes `addRandomNumber` fill the `d`-th of them, and the map from `d` to that
cell is a bijection from `{1, ..., n}` onto the empty cells: every draw selects an empty
cell, different draws select different cells, and every empty cell is selected by exactly
one draw (so a uniform draw gives each empty cell probability `1/n`). -/
theorem cell_draw_bijection (b : Board) (h : ∃ i j, b.grid i j = 0) :
    1 ≤ (emptyCells b.grid).length ∧
    (∀ c, c ∈ emptyCells b.grid ↔ b.grid c.1 c.2 = 0) ∧
    (emptyCells b.grid).Pairwise rowMajorBefore ∧
    (∀ d : Int, 1 ≤ d → d ≤ (emptyCells b.grid).length →
      ∃ c, cellAt (emptyCells b.grid) (d - 1) = some c ∧ b.grid c.1 c.2 = 0 ∧
        (emptyCells b.grid).get? (d - 1).toNat = some c) ∧
    (∀ d d' : Int, 1 ≤ d → d ≤ (emptyCells b.grid).length →
      1 ≤ d' → d' ≤ (emptyCells b.grid).length →
      cellAt (emptyCells b.grid) (d - 1) = cellAt (emptyCells b.grid) (d' - 1) → d = d') ∧
    (∀ c : Fin SIZE × Fin SIZE, b.grid c.1 c.2 = 0 →
      ∃! d : Int, 1 ≤ d ∧ d ≤ (emptyCells b.grid).length ∧
        cellAt (emptyCells b.grid) (d - 1) = some c) ∧
    (∀ (mode : Int) (r : Rng), 1 ≤ r.draw r.calls 1 (emptyCells b.grid).length →
      r.draw r.calls 1 (emptyCells b.grid).length ≤ (emptyCells b.grid).length →
      ∃ (s : Board × Rng) (c : Fin SIZE × Fin SIZE), b.addRandomNumber mode r = some s ∧
        cellAt (emptyCells b.grid) (r.draw r.calls 1 (emptyCells b.grid).length - 1) = some c ∧
        s.1.grid c.1 c.2 ≠ 0 ∧ ∀ i j, (i, j) ≠ c → s.1.grid i j = b.grid i j) := by
  refine ⟨emptyCells_length_pos _ h, mem_emptyCells _, emptyCells_rowMajor _, ?_, ?_, ?_, ?_⟩
  · intro d h1 h2
    obtain ⟨c, hc, hm, hg⟩ := cellAt_some (emptyCells b.grid) d h1 h2
    exact ⟨c, hc, (mem_emptyCells _ _).1 hm, hg⟩
  · intro d d' h1 h2 h1' h2' e
    exact cellAt_inj _ (nodup_emptyCells _) d d' h1 h2 h1' h2' e
  · intro c hc
    obtain ⟨d, h1, h2, e⟩ := cellAt_surj _ c ((mem_emptyCells _ _).2 hc)
    refine ⟨d, ⟨h1, h2, e⟩, ?_⟩
    rintro d' ⟨h1', h2', e'⟩
    exact cellAt_inj _ (nodup_emptyCells _) d' d h1' h2' h1 h2 (by rw [e, e'])
  · intro mode r h1 h2
    obtain ⟨c, hc, hm, hg⟩ := cellAt_some (emptyCells b.grid) _ h1 h2
    obtain ⟨c', -, hg', hs⟩ := addRandomNumber_spawn mode b r h h1 h2
    have ec : c' = c := Option.some.inj (hg'.symm.trans hg)
    subst ec
    refine ⟨_, c', hs, hc, ?_, ?_⟩
    · have := spawnValue_two_or_four mode (r.draw (r.calls + 1) 1 10)
      simp only [setCell_apply, and_self, if_true]
      rcases this with e | e <;> rw [e] <;> decide
    · intro i j hij
      have : ¬ (i = c'.1 ∧ j = c'.2) := fun e => hij (Prod.ext e.1 e.2)
      simp [setCell_apply, this]

/-- C17 at the board whose only tile is in the first cell: 15 empty cells, the first of them
in row-major order is `(0, 1)`, and the draw 1 selects it. -/
theorem cell_draw_bijection_witness :
    (emptyCells cornerTile.grid).length = 15 ∧
      cellAt (emptyCells cornerTile.grid) (1 - 1) = some (0, 1) ∧
      ∃! d : Int, 1 ≤ d ∧ d ≤ (emptyCells cornerTile.grid).length ∧
        cellAt (emptyCells cornerTile.grid) (d - 1) = some (0, 1) :=
  ⟨by decide, by decide,
    (cell_draw_bijection cornerTile ⟨0, 1, by decide⟩).2.2.2.2.2.1 (0, 1) (by decide)⟩

/-! ## C18: the four slides up to symmetry -/

theorem transpose_grid (b : Board) : b.transpose.grid = fun i j => b.grid j i := by
  funext i j
  have hf : ∀ i : Fin SIZE, allIndices.filter (fun j => decide (i < j)) =
      if i = 0 then [1, 2, 3] else if i = 1 then [2, 3] else if i = 2 then [3] else [] := by
    decide
  simp only [Board.transpose, hf]
  simp only [allIndices, List.foldl, swapCells, setCell_apply]
  rcases fin4_cases i with rfl | rfl | rfl | rfl <;>
    rcases fin4_cases j with rfl | rfl | rfl | rfl <;> simp

theorem reverseRows_grid (b : Board) : b.reverseRows.grid = fun i j => b.grid i (Fin.rev j) := by
  funext i j
  simp only [Board.reverseRows, allIndices, leftHalf, List.foldl, swapCells, setCell_apply]
  rcases fin4_cases i with rfl | rfl | rfl | rfl <;>
    rcases fin4_cases j with rfl | rfl | rfl | rfl <;> simp <;> rfl

theorem board_ext (b c : Board) (hg : b.grid = c.grid) (ht : b.target = c.target) : b = c := by
  cases b; cases c; simp_all

/-- Two boards whose lines agree, each for its own move, have slides whose lines agree and
that return the same value. -/
theorem slide_congr_lines (m n : Move) (b c : Board)
    (h : ∀ k, lineOf m b.grid k = lineOf n c.grid k) :
    (∀ k, lineOf m (b.slide m).1.grid k = lineOf n (c.slide n).1.grid k) ∧
      (b.slide m).2 = (c.slide n).2 := by
  constructor
  · intro k
    rw [slide_line, slide_line, h k]
  · rw [slide_moved, slide_moved, h 0, h 1, h 2, h 3]

/-- C18: the four slides apply one policy up to the symmetry of the grid: `slideRight` gives
the same board and the same returned value as `reverseRows`, `slideLeft`, `reverseRows`;
`slideUp` the same as `transpose`, `slideLeft`, `transpose`; and `slideDown` the same as
`transpose`, `slideRight`, `transpose`. -/
theorem slides_by_symmetry (b : Board) :
    b.slideRight = (b.reverseRows.slideLeft.1.reverseRows, b.reverseRows.slideLeft.2) ∧
    b.slideUp = (b.transpose.slideLeft.1.transpose, b.transpose.slideLeft.2) ∧
    b.slideDown = (b.transpose.slideRight.1.transpose, b.transpose.slideRight.2) := by
  refine ⟨?_, ?_, ?_⟩
  · have h : ∀ k, lineOf Move.R b.grid k = lineOf Move.L b.reverseRows.grid k := by
      intro k; rw [reverseRows_grid]; rfl
    obtain ⟨hl, hm⟩ := slide_congr_lines Move.R Move.L b b.reverseRows h
    refine Prod.ext (board_ext _ _ ?_ ?_) hm
    · funext i j
      have := congrFun (hl i) (Fin.rev j)
      simp only [lineOf, cellOf, Fin.rev_rev] at this
      show (b.slide Move.R).1.grid i j = _
      rw [this, reverseRows_grid]
      rfl
    · show (b.slide Move.R).1.target = (b.reverseRows.slide Move.L).1.target
      rw [slide_target, slide_target]; rfl
  · have h : ∀ k, lineOf Move.U b.grid k = lineOf Move.L b.transpose.grid k := by
      intro k; rw [transpose_grid]; rfl
    obtain ⟨hl, hm⟩ := slide_congr_lines Move.U Move.L b b.transpose h
    refine Prod.ext (board_ext _ _ ?_ ?_) hm
    · funext i j
      have := congrFun (hl j) i
      simp only [lineOf, cellOf] at this
      show (b.slide Move.U).1.grid i j = _
      rw [this, transpose_grid]
      rfl
    · show (b.slide Move.U).1.target = (b.transpose.slide Move.L).1.target
      rw [slide_target, slide_target]; rfl
  · have h : ∀ k, lineOf Move.D b.grid k = lineOf Move.R b.transpose.grid k := by
      intro k; rw [transpose_grid]; rfl
    obtain ⟨hl, hm⟩ := slide_congr_lines Move.D Move.R b b.transpose h
    refine Prod.ext (board_ext _ _ ?_ ?_) hm
    · funext i j
      have := congrFun (hl j) (Fin.rev i)
      simp only [lineOf, cellOf, Fin.rev_rev] at this
      show (b.slide Move.D).1.grid i j = _
      rw [this, transpose_grid]
      rfl
    · show (b.slide Move.D).1.target = (b.transpose.slide Move.R).1.target
      rw [slide_target, slide_target]; rfl

/-! ## C19: a lone tile advances one cell -/

theorem lone_line (l : Line) (q : Fin SIZE) (v : Int) (hv : v ≠ 0) (hq : 1 ≤ q.val)
    (hl : ∀ p, l p = if p = q then v else 0) :
    lineMoved l = true ∧ ∀ p, sweptLine l p = if p = q - 1 then v else 0 := by
  have l0 := hl 0
  have l1 := hl 1
  have l2 := hl 2
  have l3 := hl 3
  rcases fin4_cases q with rfl | rfl | rfl | rfl
  · exact absurd hq (by decide)
  all_goals
    simp only [Fin.isValue, Fin.reduceEq, if_true, if_false, reduceIte] at l0 l1 l2 l3
    refine ⟨by simp [lineMoved, fires, farAfter, l0, l1, l2, l3, hv], fun p => ?_⟩
    rcases fin4_cases p with rfl | rfl | rfl | rfl <;>
      simp [sweptLine_0, sweptLine_1, sweptLine_2, sweptLine_3, nearAfter, farAfter,
        l0, l1, l2, l3, hv]

theorem rev_eq_pred_iff : ∀ c j : Fin SIZE, j.val ≤ 2 →
    (Fin.rev c = Fin.rev j - 1 ↔ c = j + 1) := by
  decide

theorem rev_eq_iff : ∀ c j : Fin SIZE, (Fin.rev c = j ↔ c = Fin.rev j) := by
  decide

theorem one_le_rev : ∀ j : Fin SIZE, j.val ≤ 2 → 1 ≤ (Fin.rev j).val := by
  decide

/-- C19: a row whose only non-empty cell is at column `j ≥ 1`, with value `v`, is turned by
`slideLeft`, which returns `true`, into the row whose only non-empty cell is at column
`j - 1` with value `v`; likewise `slideRight` moves a lone tile of a row from column
`j ≤ 2` to `j + 1`, `slideUp` a lone tile of a column from row `i ≥ 1` to `i - 1`, and
`slideDown` one from row `i ≤ 2` to `i + 1`. -/
theorem lone_tile_moves_one_cell (b : Board) (v : Int) (hv : v ≠ 0) :
    (∀ i j : Fin SIZE, 1 ≤ j.val → (∀ c, b.grid i c = if c = j then v else 0) →
      b.slideLeft.2 = true ∧ ∀ c, b.slideLeft.1.grid i c = if c = j - 1 then v else 0) ∧
    (∀ i j : Fin SIZE, j.val ≤ 2 → (∀ c, b.grid i c = if c = j then v else 0) →
      b.slideRight.2 = true ∧ ∀ c, b.slideRight.1.grid i c = if c = j + 1 then v else 0) ∧
    (∀ j i : Fin SIZE, 1 ≤ i.val → (∀ r, b.grid r j = if r = i then v else 0) →
      b.slideUp.2 = true ∧ ∀ r, b.slideUp.1.grid r j = if r = i - 1 then v else 0) ∧
    (∀ j i : Fin SIZE, i.val ≤ 2 → (∀ r, b.grid r j = if r = i then v else 0) →
      b.slideDown.2 = true ∧ ∀ r, b.slideDown.1.grid r j = if r = i + 1 then v else 0) := by
  refine ⟨?_, ?_, ?_, ?_⟩
  · intro i j hj h
    obtain ⟨hm, hs⟩ := lone_line (lineOf Move.L b.grid i) j v hv hj h
    refine ⟨(slide_moved_iff Move.L b).2 ⟨i, hm⟩, fun c => ?_⟩
    have := hs c
    rw [← slide_line] at this
    exact this
  · intro i j hj h
    have hl : ∀ p, lineOf Move.R b.grid i p = if p = Fin.rev j then v else 0 := by
      intro p
      show b.grid i (Fin.rev p) = _
      rw [h]
      simp only [rev_eq_iff]
    obtain ⟨hm, hs⟩ := lone_line (lineOf Move.R b.grid i) (Fin.rev j) v hv (one_le_rev j hj) hl
    refine ⟨(slide_moved_iff Move.R b).2 ⟨i, hm⟩, fun c => ?_⟩
    have := hs (Fin.rev c)
    rw [← slide_line] at this
    simp only [lineOf, cellOf, Fin.rev_rev, rev_eq_pred_iff c j hj] at this
    exact this
  · intro j i hi h
    obtain ⟨hm, hs⟩ := lone_line (lineOf Move.U b.grid j) i v hv hi h
    refine ⟨(slide_moved_iff Move.U b).2 ⟨j, hm⟩, fun r => ?_⟩
    have := hs r
    rw [← slide_line] at this
    exact this
  · intro j i hi h
    have hl : ∀ p, lineOf Move.D b.grid j p = if p = Fin.rev i then v else 0 := by
      intro p
      show b.grid (Fin.rev p) j = _
      rw [h]
      simp only [rev_eq_iff]
    obtain ⟨hm, hs⟩ := lone_line (lineOf Move.D b.grid j) (Fin.rev i) v hv (one_le_rev i hi) hl
    refine ⟨(slide_moved_iff Move.D b).2 ⟨j, hm⟩, fun r => ?_⟩
    have := hs (Fin.rev r)
    rw [← slide_line] at this
    simp only [lineOf, cellOf, Fin.rev_rev, rev_eq_pred_iff r i hi] at this
    exact this

/-- C19 at the row `[0,0,0,2]`: `slideLeft` returns `true` and gives `[0,0,2,0]`. -/
theorem lone_tile_moves_one_cell_witness :
    loneTile.grid 0 = ![0, 0, 0, 2] ∧ loneTile.slideLeft.2 = true ∧
      ∀ c, loneTile.slideLeft.1.grid 0 c = if c = 3 - 1 then 2 else 0 :=
  ⟨by decide, (lone_tile_moves_one_cell loneTile 2 (by decide)).1 0 3 (by decide) (by decide)⟩

/-! ## C20: the merged flags -/

theorem slideLeftCellNoFlag_grid (i j : Fin SIZE) (s : Sweep) :
    (slideLeftCellNoFlag i j s).grid = actOn s.grid (i, j - 1) (i, j) := by
  funext a b
  simp only [slideLeftCellNoFlag, actOn, nearAfter, farAfter]
  split_ifs <;> simp only [setCell_apply] <;> split_ifs <;> simp_all

theorem slideLeftCellNoFlag_moved (i j : Fin SIZE) (s : Sweep) :
    (slideLeftCellNoFlag i j s).moved = (s.moved || fires (s.grid i (j - 1)) (s.grid i j)) := by
  simp only [slideLeftCellNoFlag, fires]
  split_ifs <;> simp_all

theorem slideLeftRowNoFlag_eq (i : Fin SIZE) (g : Grid) (mv : Bool) :
    slideLeftRowNoFlag i (g, mv) = (sweepOn Move.L i g, mv || sweepMoved Move.L i g) := by
  simp only [slideLeftRowNoFlag, ascending, List.foldl, slideLeftCellNoFlag_grid,
    slideLeftCellNoFlag_moved]
  simp only [sweepOn, sweepMoved, cellOf, Bool.or_assoc]
  rfl

theorem slideLeft_flags_false (i : Fin SIZE) (g : Grid) (mv : Bool) :
    (⟨g, noFlags, mv⟩ : Sweep).merged ((1 : Fin SIZE) - 1) = false ∧
    (slideLeftCell i 1 ⟨g, noFlags, mv⟩).merged ((2 : Fin SIZE) - 1) = false ∧
    (slideLeftCell i 2 (slideLeftCell i 1 ⟨g, noFlags, mv⟩)).merged
      ((3 : Fin SIZE) - 1) = false := by
  refine ⟨rfl, ?_, ?_⟩
  · rw [slideLeftCell_merged _ _ _ _ (by decide)]; rfl
  · rw [slideLeftCell_merged _ _ _ _ (by decide), slideLeftCell_merged _ _ _ _ (by decide)]; rfl

theorem slideLeft_eq_noFlag (b : Board) : b.slideLeft = b.slideLeftNoFlag := by
  simp only [Board.slideLeft, Board.slideLeftNoFlag, allIndices, List.foldl, slideLeftRow_eq,
    slideLeftRowNoFlag_eq]

theorem slideRightCellNoFlag_grid (i j : Fin SIZE) (s : Sweep) :
    (slideRightCellNoFlag i j s).grid = actOn s.grid (i, j + 1) (i, j) := by
  funext a b
  simp only [slideRightCellNoFlag, actOn, nearAfter, farAfter]
  split_ifs <;> simp only [setCell_apply] <;> split_ifs <;> simp_all

theorem slideRightCellNoFlag_moved (i j : Fin SIZE) (s : Sweep) :
    (slideRightCellNoFlag i j s).moved = (s.moved || fires (s.grid i (j + 1)) (s.grid i j)) := by
  simp only [slideRightCellNoFlag, fires]
  split_ifs <;> simp_all

theorem slideRightRowNoFlag_eq (i : Fin SIZE) (g : Grid) (mv : Bool) :
    slideRightRowNoFlag i (g, mv) = (sweepOn Move.R i g, mv || sweepMoved Move.R i g) := by
  simp only [slideRightRowNoFlag, descending, List.foldl, slideRightCellNoFlag_grid,
    slideRightCellNoFlag_moved]
  simp only [sweepOn, sweepMoved, cellOf, Bool.or_assoc]
  rfl

theorem slideRight_flags_false (i : Fin SIZE) (g : Grid) (mv : Bool) :
    (⟨g, noFlags, mv⟩ : Sweep).merged ((2 : Fin SIZE) + 1) = false ∧
    (slideRightCell i 2 ⟨g, noFlags, mv⟩).merged ((1 : Fin SIZE) + 1) = false ∧
    (slideRightCell i 1 (slideRightCell i 2 ⟨g, noFlags, mv⟩)).merged
      ((0 : Fin SIZE) + 1) = false := by
  refine ⟨rfl, ?_, ?_⟩
  · rw [slideRightCell_merged _ _ _ _ (by decide)]; rfl
  · rw [slideRightCell_merged _ _ _ _ (by decide), slideRightCell_merged _ _ _ _ (by decide)]; rfl

theorem slideRight_eq_noFlag (b : Board) : b.slideRight = b.slideRightNoFlag := by
  simp only [Board.slideRight, Board.slideRightNoFlag, allIndices, List.foldl, slideRightRow_eq,
    slideRightRowNoFlag_eq]

theorem slideUpCellNoFlag_grid (j i : Fin SIZE) (s : Sweep) :
    (slideUpCellNoFlag j i s).grid = actOn s.grid (i - 1, j) (i, j) := by
  funext a b
  simp only [slideUpCellNoFlag, actOn, nearAfter, farAfter]
  split_ifs <;> simp only [setCell_apply] <;> split_ifs <;> simp_all

theorem slideUpCellNoFlag_moved (j i : Fin SIZE) (s : Sweep) :
    (slideUpCellNoFlag j i s).moved = (s.moved || fires (s.grid (i - 1) j) (s.grid i j)) := by
  simp only [slideUpCellNoFlag, fires]
  split_ifs <;> simp_all

theorem slideUpColumnNoFlag_eq (j : Fin SIZE) (g : Grid) (mv : Bool) :
    slideUpColumnNoFlag j (g, mv) = (sweepOn Move.U j g, mv || sweepMoved Move.U j g) := by
  simp only [slideUpColumnNoFlag, ascending, List.foldl, slideUpCellNoFlag_grid,
    slideUpCellNoFlag_moved]
  simp only [sweepOn, sweepMoved, cellOf, Bool.or_assoc]
  rfl

theorem slideUp_flags_false (j : Fin SIZE) (g : Grid) (mv : Bool) :
    (⟨g, noFlags, mv⟩ : Sweep).merged ((1 : Fin SIZE) - 1) = false ∧
    (slideUpCell j 1 ⟨g, noFlags, mv⟩).merged ((2 : Fin SIZE) - 1) = false ∧
    (slideUpCell j 2 (slideUpCell j 1 ⟨g, noFlags, mv⟩)).merged
      ((3 : Fin SIZE) - 1) = false := by
  refine ⟨rfl, ?_, ?_⟩
  · rw [slideUpCell_merged _ _ _ _ (by decide)]; rfl
  · rw [slideUpCell_merged _ _ _ _ (by decide), slideUpCell_merged _ _ _ _ (by decide)]; rfl

theorem slideUp_eq_noFlag (b : Board) : b.slideUp = b.slideUpNoFlag := by
  simp only [Board.slideUp, Board.slideUpNoFlag, allIndices, List.foldl, slideUpColumn_eq,
    slideUpColumnNoFlag_eq]

theorem slideDownCellNoFlag_grid (j i : Fin SIZE) (s : Sweep) :
    (slideDownCellNoFlag j i s).grid = actOn s.grid (i + 1, j) (i, j) := by
  funext a b
  simp only [slideDownCellNoFlag, actOn, nearAfter, farAfter]
  split_ifs <;> simp only [setCell_apply] <;> split_ifs <;> simp_all

theorem slideDownCellNoFlag_moved (j i : Fin SIZE) (s : Sweep) :
    (slideDownCellNoFlag j i s).moved = (s.moved || fires (s.grid (i + 1) j) (s.grid i j)) := by
  simp only [slideDownCellNoFlag, fires]
  split_ifs <;> simp_all

theorem slideDownColumnNoFlag_eq (j : Fin SIZE) (g : Grid) (mv : Bool) :
    slideDownColumnNoFlag j (g, mv) = (sweepOn Move.D j g, mv || sweepMoved Move.D j g) := by
  simp only [slideDownColumnNoFlag, descending, List.foldl, slideDownCellNoFlag_grid,
    slideDownCellNoFlag_moved]
  simp only [sweepOn, sweepMoved, cellOf, Bool.or_assoc]
  rfl

theorem slideDown_flags_false (j : Fin SIZE) (g : Grid) (mv : Bool) :
    (⟨g, noFlags, mv⟩ : Sweep).merged ((2 : Fin SIZE) + 1) = false ∧
    (slideDownCell j 2 ⟨g, noFlags, mv⟩).merged ((1 : Fin SIZE) + 1) = false ∧
    (slideDownCell j 1 (slideDownCell j 2 ⟨g, noFlags, mv⟩)).merged
      ((0 : Fin SIZE) + 1) = false := by
  refine ⟨rfl, ?_, ?_⟩
  · rw [slideDownCell_merged _ _ _ _ (by decide)]; rfl
  · rw [slideDownCell_merged _ _ _ _ (by decide), slideDownCell_merged _ _ _ _ (by decide)]; rfl

theorem slideDown_eq_noFlag (b : Board) : b.slideDown = b.slideDownNoFlag := by
  simp only [Board.slideDown, Board.slideDownNoFlag, allIndices, List.foldl, slideDownColumn_eq,
    slideDownColumnNoFlag_eq]

/-- C20: the `merged[]` flags never influence a slide. Each of `slideLeft`, `slideRight`,
`slideUp`, `slideDown` gives the same board and the same returned value as the same sweep
with the condition `!merged[target]` removed, because at each of the three steps of the
inner loop, from any grid, the flag of the destination cell is still `false`. -/
theorem merged_flags_never_matter (b : Board) :
    b.slideLeft = b.slideLeftNoFlag ∧ b.slideRight = b.slideRightNoFlag ∧
    b.slideUp = b.slideUpNoFlag ∧ b.slideDown = b.slideDownNoFlag ∧
    (∀ (i : Fin SIZE) (g : Grid) (mv : Bool),
      (⟨g, noFlags, mv⟩ : Sweep).merged ((1 : Fin SIZE) - 1) = false ∧
      (slideLeftCell i 1 ⟨g, noFlags, mv⟩).merged ((2 : Fin SIZE) - 1) = false ∧
      (slideLeftCell i 2 (slideLeftCell i 1 ⟨g, noFlags, mv⟩)).merged
        ((3 : Fin SIZE) - 1) = false) ∧
    (∀ (i : Fin SIZE) (g : Grid) (mv : Bool),
      (⟨g, noFlags, mv⟩ : Sweep).merged ((2 : Fin SIZE) + 1) = false ∧
      (slideRightCell i 2 ⟨g, noFlags, mv⟩).merged ((1 : Fin SIZE) + 1) = false ∧
      (slideRightCell i 1 (slideRightCell i 2 ⟨g, noFlags, mv⟩)).merged
        ((0 : Fin SIZE) + 1) = false) ∧
    (∀ (j : Fin SIZE) (g : Grid) (mv : Bool),
      (⟨g, noFlags, mv⟩ : Sweep).merged ((1 : Fin SIZE) - 1) = false ∧
      (slideUpCell j 1 ⟨g, noFlags, mv⟩).merged ((2 : Fin SIZE) - 1) = false ∧
      (slideUpCell j 2 (slideUpCell j 1 ⟨g, noFlags, mv⟩)).merged
        ((3 : Fin SIZE) - 1) = false) ∧
    (∀ (j : Fin SIZE) (g : Grid) (mv : Bool),
      (⟨g, noFlags, mv⟩ : Sweep).merged ((2 : Fin SIZE) + 1) = false ∧
      (slideDownCell j 2 ⟨g, noFlags, mv⟩).merged ((1 : Fin SIZE) + 1) = false ∧
      (slideDownCell j 1 (slideDownCell j 2 ⟨g, noFlags, mv⟩)).merged
        ((0 : Fin SIZE) + 1) = false) := by
  refine ⟨slideLeft_eq_noFlag b, slideRight_eq_noFlag b, slideUp_eq_noFlag b,
    slideDown_eq_noFlag b, ?_, ?_, ?_, ?_⟩
  · exact slideLeft_flags_false
  · exact slideRight_flags_false
  · exact slideUp_flags_false
  · exact slideDown_flags_false

end Game1024
